import Mathlib

/-!
Verification of the evaluation-harness core (evaluators, response cache,
rate limiter, retry orchestrator, run summary) against its specification.

The JavaScript sources are shallowly embedded: pure string/number logic is
translated to executable Lean functions over `List Char`, `String`, `Nat`
and `Rat` (JS numbers that the claims depend on are exact rationals here);
code that can throw is modelled with `Except String`; external collaborators
(the network, the file system, JS `RegExp` for patterns that the claims do
not inspect) are modelled as explicit oracle parameters.
-/

namespace Spec2Proof

/-! ## JS string primitives

Small executable models of the JavaScript string operations used by the
sources: `toLowerCase` (ASCII range, which is all the sources rely on),
`trim`, `includes`, `split(',')`, and the `\s` / `\w` / `\d` character
classes of JS regexes. -/

/-- ASCII lower-casing of a character code (model of the case folding done
by `toLowerCase()` and by the `i` regex flag on the ASCII inputs used here). -/
def lccN (n : Nat) : Nat := if 65 ≤ n ∧ n ≤ 90 then n + 32 else n

/-- ASCII lower-casing of a character. -/
def lccChar (c : Char) : Char :=
  if 65 ≤ c.toNat ∧ c.toNat ≤ 90 then Char.ofNat (c.toNat + 32) else c

/-- Model of `String.prototype.toLowerCase` (ASCII). -/
def jsLower (s : String) : String := String.mk (s.data.map lccChar)

/-- The JS regex class `\s` (ASCII part: space, tab, LF, VT, FF, CR). -/
def jsWsB (c : Char) : Bool :=
  c = ' ' || c = '\t' || c = '\n' || c = '\x0b' || c = '\x0c' || c = '\r'

/-- The JS regex class `\w`: `[A-Za-z0-9_]`. -/
def jsWordB (c : Char) : Bool :=
  let n := c.toNat
  (97 ≤ n && n ≤ 122) || (65 ≤ n && n ≤ 90) || (48 ≤ n && n ≤ 57) || n == 95

/-- The JS regex class `\d`. -/
def jsDigitB (c : Char) : Bool := '0' ≤ c && c ≤ '9'

/-- Model of `String.prototype.trim` on a character list. -/
def jsTrimL (l : List Char) : List Char :=
  ((l.dropWhile jsWsB).reverse.dropWhile jsWsB).reverse

/-- Model of `String.prototype.trim`. -/
def jsTrim (s : String) : String := String.mk (jsTrimL s.data)

/-- Does `pat` occur at the head of `text`, compared case-insensitively
(model of a JS regex literal with the `i` flag anchored at a position)? -/
def ciStartsWith : List Char → List Char → Bool
  | [], _ => true
  | _ :: _, [] => false
  | p :: ps, c :: cs => (lccN c.toNat == lccN p.toNat) && ciStartsWith ps cs

/-- Does `pat` occur anywhere in `text` (case-insensitive)? -/
def ciOccursB (pat : List Char) : List Char → Bool
  | [] => ciStartsWith pat []
  | c :: cs => ciStartsWith pat (c :: cs) || ciOccursB pat cs

/-- Case-sensitive occurrence at the head (model of `startsWith`). -/
def csStartsWith : List Char → List Char → Bool
  | [], _ => true
  | _ :: _, [] => false
  | p :: ps, c :: cs => (c == p) && csStartsWith ps cs

/-- Case-sensitive substring occurrence (model of `String.prototype.includes`). -/
def csOccursB (pat : List Char) : List Char → Bool
  | [] => csStartsWith pat []
  | c :: cs => csStartsWith pat (c :: cs) || csOccursB pat cs

/-- Model of `a.includes(b)` on strings. -/
def sContains (hay pat : String) : Bool := csOccursB pat.data hay.data

/-- Model of `String.prototype.substring(0, n)`. -/
def jsTake (s : String) (n : Nat) : String := String.mk (s.data.take n)

/-- Model of `Array.prototype.join(sep)` for strings. -/
def jsJoin (sep : String) (l : List String) : String := String.intercalate sep l

/-- Model of `String.prototype.split(',')`. -/
def jsSplitComma (s : String) : List String := s.splitOn ","

/-! ## `stripThinkingTags` (evaluators module)

The source applies four global regex replacements in order:
`/<think>[\s\S]*?<\/think>/gi`, `/<thinking>[\s\S]*?<\/thinking>/gi`,
`/<think>[\s\S]*$/gi`, `/<thinking>[\s\S]*$/gi`, then `trim()`.
A global non-greedy paired replace is modelled by `removePairs`: scan left
to right; at the first position where the open tag matches, delete through
the earliest following close tag and continue scanning after the deletion
point (JS `replace` does not rescan replaced output).  `removePairs` uses
explicit fuel (one unit per step, each step consumes at least one input
character, so fuel = input length suffices) to stay structurally recursive
and kernel-computable. -/

def thinkOpen : List Char := ['<', 't', 'h', 'i', 'n', 'k', '>']

def thinkClose : List Char := ['<', '/', 't', 'h', 'i', 'n', 'k', '>']

def thinkingOpen : List Char := ['<', 't', 'h', 'i', 'n', 'k', 'i', 'n', 'g', '>']

def thinkingClose : List Char := ['<', '/', 't', 'h', 'i', 'n', 'k', 'i', 'n', 'g', '>']

/-- Find the earliest case-insensitive occurrence of `cl` and return the
suffix just after it (the "continue after the close tag" step). -/
def ciDropThrough (cl : List Char) : List Char → Option (List Char)
  | [] => none
  | c :: cs =>
    if ciStartsWith cl (c :: cs) then some (List.drop cl.length (c :: cs))
    else ciDropThrough cl cs

/-- One fuelled pass of the global non-greedy replace of `op …earliest… cl`
by the empty string. -/
def removePairsF (op cl : List Char) : Nat → List Char → List Char
  | _, [] => []
  | 0, l => l
  | Nat.succ n, c :: cs =>
    if ciStartsWith op (c :: cs) then
      match ciDropThrough cl (List.drop op.length (c :: cs)) with
      | some rest => removePairsF op cl n rest
      | none => c :: removePairsF op cl n cs
    else c :: removePairsF op cl n cs

/-- Model of `text.replace(/op[\s\S]*?cl/gi, '')`. -/
def removePairs (op cl l : List Char) : List Char := removePairsF op cl l.length l

/-- Model of `text.replace(/op[\s\S]*$/gi, '')`: delete from the first
case-insensitive occurrence of the open tag to the end. -/
def removeUnclosed (op : List Char) : List Char → List Char
  | [] => []
  | c :: cs => if ciStartsWith op (c :: cs) then [] else c :: removeUnclosed op cs

/-- The four replacement passes of `stripThinkingTags`, followed by `trim`. -/
def stripL (l : List Char) : List Char :=
  jsTrimL (removeUnclosed thinkingOpen (removeUnclosed thinkOpen
    (removePairs thinkingOpen thinkingClose (removePairs thinkOpen thinkClose l))))

/-- Model of `stripThinkingTags(response)`.  (The source's early return
`if (!response) return ''` is the identity here: on the empty string every
pass and the trim return the empty string.) -/
def stripThinkingTags (s : String) : String := String.mk (stripL s.data)

/-! ## JSON values, `JSON.parse` and `JSON.stringify`

`jsonMatch` parses the response and compares values via
`JSON.stringify(x) === JSON.stringify(y)`; `getCacheKey` hashes
`JSON.stringify` of the request tuple.  JS numbers appearing in JSON and in
sampling options are modelled as exact decimals in a canonical
sign/mantissa/exponent form (`DecNum`), so that two numeric literals are
structurally equal exactly when they denote the same number, mirroring
`===` on the numbers the harness handles. -/

/-- A JS number as an exact decimal: `(-1)^neg * mant * 10^exp`,
kept canonical (`mant` not divisible by 10, and `0` is `⟨false, 0, 0⟩`). -/
structure DecNum where
  neg : Bool
  mant : Nat
  exp : Int
deriving DecidableEq, Inhabited

/-- Strip factors of 10 from the mantissa into the exponent (fuelled). -/
def strip10 : Nat → Nat → Int → Nat × Int
  | 0, m, e => (m, e)
  | f + 1, m, e => if m % 10 = 0 ∧ m ≠ 0 then strip10 f (m / 10) (e + 1) else (m, e)

/-- Build a canonical `DecNum` from sign, mantissa and decimal exponent. -/
def canonNum (neg : Bool) (mant : Nat) (exp : Int) : DecNum :=
  if mant = 0 then ⟨false, 0, 0⟩
  else
    let (m, e) := strip10 mant mant exp
    ⟨neg, m, e⟩

/-- A `DecNum` from a natural number. -/
def natNum (n : Nat) : DecNum := canonNum false n 0

/-- Decimal digits of a natural number (fuelled). -/
def natReprAux : Nat → Nat → List Char
  | 0, _ => []
  | f + 1, n =>
    if n < 10 then [Char.ofNat (48 + n)]
    else natReprAux f (n / 10) ++ [Char.ofNat (48 + n % 10)]

/-- Decimal printing of a natural number. -/
def natRepr (n : Nat) : String := String.mk (natReprAux (n + 1) n)

/-- Decimal printing of an integer. -/
def intRepr : Int → String
  | .ofNat n => natRepr n
  | .negSucc n => "-" ++ natRepr (n + 1)

inductive Json where
  | null : Json
  | bool (b : Bool) : Json
  | num (d : DecNum) : Json
  | str (s : String) : Json
  | arr (elems : List Json) : Json
  | obj (fields : List (String × Json)) : Json
deriving Inhabited

/-- Printing of a JSON number.  JS prints plain decimal notation; this
prints the same canonical value in mantissa/exponent form, which is
injective on canonical `DecNum`s and therefore induces the same
`===`-comparison behaviour on stringified values. -/
def numRepr (d : DecNum) : String :=
  (if d.neg then "-" else "") ++ natRepr d.mant ++
    (if d.exp = 0 then "" else "e" ++ intRepr d.exp)

/-- `JSON.stringify` escaping for one character. -/
def escChar (c : Char) : String :=
  if c = '"' then "\\\"" else if c = '\\' then "\\\\"
  else if c = '\n' then "\\n" else if c = '\t' then "\\t"
  else if c = '\r' then "\\r" else String.singleton c

/-- `JSON.stringify` of a string value. -/
def escStr (s : String) : String :=
  "\"" ++ String.join (s.data.map escChar) ++ "\""

mutual

/-- Model of `JSON.stringify` on a JSON value. -/
def jsonStringify : Json → String
  | .null => "null"
  | .bool true => "true"
  | .bool false => "false"
  | .num q => numRepr q
  | .str s => escStr s
  | .arr l => "[" ++ jsonArrStr l ++ "]"
  | .obj l => "\x7b" ++ jsonObjStr l ++ "\x7d"

def jsonArrStr : List Json → String
  | [] => ""
  | [x] => jsonStringify x
  | x :: y :: xs => jsonStringify x ++ "," ++ jsonArrStr (y :: xs)

def jsonObjStr : List (String × Json) → String
  | [] => ""
  | [(k, v)] => escStr k ++ ":" ++ jsonStringify v
  | (k, v) :: y :: xs => escStr k ++ ":" ++ jsonStringify v ++ "," ++ jsonObjStr (y :: xs)

end

/-- JSON whitespace skipping inside the parser. -/
def pSkipWs : List Char → List Char :=
  List.dropWhile (fun c => c == ' ' || c == '\t' || c == '\n' || c == '\r')

/-- Hexadecimal digit value (for `\u` escapes). -/
def hexV (c : Char) : Option Nat :=
  if '0' ≤ c ∧ c ≤ '9' then some (c.toNat - 48)
  else if 'a' ≤ c ∧ c ≤ 'f' then some (c.toNat - 87)
  else if 'A' ≤ c ∧ c ≤ 'F' then some (c.toNat - 55)
  else none

/-- Parse the body of a JSON string literal (after the opening quote),
returning the decoded characters and the input after the closing quote. -/
def pStringBody : List Char → Except String (List Char × List Char)
  | [] => .error "Unterminated string in JSON"
  | '"' :: rest => .ok ([], rest)
  | '\\' :: 'u' :: a :: b :: c :: d :: rest =>
    match hexV a, hexV b, hexV c, hexV d with
    | some x, some y, some z, some w => do
      let (s, r) ← pStringBody rest
      .ok (Char.ofNat (((x * 16 + y) * 16 + z) * 16 + w) :: s, r)
    | _, _, _, _ => .error "Bad Unicode escape in JSON"
  | '\\' :: e :: rest =>
    match (if e = '"' ∨ e = '\\' ∨ e = '/' then some e
           else if e = 'n' then some '\n' else if e = 't' then some '\t'
           else if e = 'r' then some '\r' else if e = 'b' then some '\x08'
           else if e = 'f' then some '\x0c' else none) with
    | some ch => do
      let (s, r) ← pStringBody rest
      .ok (ch :: s, r)
    | none => .error "Bad escape in JSON"
  | c :: rest => do
    let (s, r) ← pStringBody rest
    .ok (c :: s, r)

/-- Digits to a natural number. -/
def digitsToNat (l : List Char) : Nat :=
  l.foldl (fun acc c => acc * 10 + (c.toNat - 48)) 0

/-- Parse a JSON number starting at the current position. -/
def pNumber (l : List Char) : Except String (DecNum × List Char) :=
  let (neg, l1) := match l with
    | '-' :: t => (true, t)
    | _ => (false, l)
  let ds := l1.takeWhile jsDigitB
  if ds.isEmpty then .error "Bad number in JSON" else
  let l2 := l1.drop ds.length
  let (fs, l3) := match l2 with
    | '.' :: t => (t.takeWhile jsDigitB, t.drop (t.takeWhile jsDigitB).length)
    | _ => ([], l2)
  let (expNeg, expVal, l4) := match l3 with
    | 'e' :: t | 'E' :: t =>
      match t with
      | '-' :: t2 => (true, digitsToNat (t2.takeWhile jsDigitB), t2.drop (t2.takeWhile jsDigitB).length)
      | '+' :: t2 => (false, digitsToNat (t2.takeWhile jsDigitB), t2.drop (t2.takeWhile jsDigitB).length)
      | _ => (false, digitsToNat (t.takeWhile jsDigitB), t.drop (t.takeWhile jsDigitB).length)
    | _ => (false, 0, l3)
  let mant := digitsToNat (ds ++ fs)
  let exp : Int := (if expNeg then -(expVal : Int) else (expVal : Int)) - (fs.length : Int)
  .ok (canonNum neg mant exp, l4)

/-- Insert a parsed object member with JS property semantics: a duplicate
key keeps its original position but takes the later value. -/
def objInsert : List (String × Json) → String → Json → List (String × Json)
  | [], k, v => [(k, v)]
  | (k0, v0) :: xs, k, v =>
    if k0 = k then (k0, v) :: xs else (k0, v0) :: objInsert xs k v

mutual

/-- Fuelled parser for one JSON value (fuel bounds the number of parsing
steps; `input length + 1` always suffices since every step consumes at
least one character). -/
def pValF : Nat → List Char → Except String (Json × List Char)
  | 0, _ => .error "JSON input too deeply nested"
  | Nat.succ n, l =>
    match pSkipWs l with
    | [] => .error "Unexpected end of JSON input"
    | c :: cs =>
      if c = '{' then
        match pSkipWs cs with
        | '}' :: rest => .ok (.obj [], rest)
        | rest => pObjMembersF n rest []
      else if c = '[' then
        match pSkipWs cs with
        | ']' :: rest => .ok (.arr [], rest)
        | rest => pArrElemsF n rest []
      else if c = '"' then do
        let (sv, rest) ← pStringBody cs
        .ok (.str (String.mk sv), rest)
      else if c = '-' ∨ jsDigitB c then do
        let (q, rest) ← pNumber (c :: cs)
        .ok (.num q, rest)
      else if csStartsWith ['t', 'r', 'u', 'e'] (c :: cs) then
        .ok (.bool true, List.drop 4 (c :: cs))
      else if csStartsWith ['f', 'a', 'l', 's', 'e'] (c :: cs) then
        .ok (.bool false, List.drop 5 (c :: cs))
      else if csStartsWith ['n', 'u', 'l', 'l'] (c :: cs) then
        .ok (.null, List.drop 4 (c :: cs))
      else .error "Unexpected token in JSON"

/-- Fuelled parser for the members of an object (after `{`, at a key). -/
def pObjMembersF : Nat → List Char → List (String × Json) → Except String (Json × List Char)
  | 0, _, _ => .error "JSON input too deeply nested"
  | Nat.succ n, l, acc =>
    match pSkipWs l with
    | '"' :: cs => do
      let (k, r1) ← pStringBody cs
      match pSkipWs r1 with
      | ':' :: r2 => do
        let (v, r3) ← pValF n r2
        let acc2 := objInsert acc (String.mk k) v
        match pSkipWs r3 with
        | ',' :: r4 => pObjMembersF n r4 acc2
        | '}' :: r4 => .ok (.obj acc2, r4)
        | _ => .error "Expected comma or closing brace in JSON object"
      | _ => .error "Expected colon in JSON object"
    | _ => .error "Expected string key in JSON object"

/-- Fuelled parser for the elements of an array (after `[`, at a value). -/
def pArrElemsF : Nat → List Char → List Json → Except String (Json × List Char)
  | 0, _, _ => .error "JSON input too deeply nested"
  | Nat.succ n, l, acc => do
    let (v, r1) ← pValF n l
    match pSkipWs r1 with
    | ',' :: r2 => pArrElemsF n r2 (acc ++ [v])
    | ']' :: r2 => .ok (.arr (acc ++ [v]), r2)
    | _ => .error "Expected comma or closing bracket in JSON array"

end

/-- Model of `JSON.parse`. -/
def jsonParse (s : String) : Except String Json := do
  let (v, rest) ← pValF (s.length + 1) s.data
  if pSkipWs rest = [] then .ok v
  else .error "Unexpected non-whitespace character after JSON"

mutual

/-- Boolean structural equality on JSON values. -/
def beqJson : Json → Json → Bool
  | .null, .null => true
  | .bool a, .bool b => a == b
  | .num a, .num b => a == b
  | .str a, .str b => a == b
  | .arr a, .arr b => beqJsonList a b
  | .obj a, .obj b => beqJsonFields a b
  | _, _ => false

def beqJsonList : List Json → List Json → Bool
  | [], [] => true
  | a :: as, b :: bs => beqJson a b && beqJsonList as bs
  | _, _ => false

def beqJsonFields : List (String × Json) → List (String × Json) → Bool
  | [], [] => true
  | (k, v) :: as, (k2, v2) :: bs => k == k2 && beqJson v v2 && beqJsonFields as bs
  | _, _ => false

end

mutual

theorem beqJson_iff : ∀ a b : Json, beqJson a b = true ↔ a = b
  | .null, b => by cases b <;> simp [beqJson]
  | .bool x, b => by cases b <;> simp [beqJson]
  | .num x, b => by cases b <;> simp [beqJson]
  | .str x, b => by cases b <;> simp [beqJson]
  | .arr l, b => by
    cases b <;> simp [beqJson]
    exact beqJsonList_iff l _
  | .obj l, b => by
    cases b <;> simp [beqJson]
    exact beqJsonFields_iff l _

theorem beqJsonList_iff : ∀ a b : List Json, beqJsonList a b = true ↔ a = b
  | [], b => by cases b <;> simp [beqJsonList]
  | x :: xs, b => by
    cases b with
    | nil => simp [beqJsonList]
    | cons y ys => simp [beqJsonList, beqJson_iff x y, beqJsonList_iff xs ys]

theorem beqJsonFields_iff : ∀ a b : List (String × Json), beqJsonFields a b = true ↔ a = b
  | [], b => by cases b <;> simp [beqJsonFields]
  | (k, v) :: xs, b => by
    cases b with
    | nil => simp [beqJsonFields]
    | cons y ys =>
      cases y with
      | mk k2 v2 => simp [beqJsonFields, beqJson_iff v v2, beqJsonFields_iff xs ys]

end

instance : DecidableEq Json := fun a b => decidable_of_iff _ (beqJson_iff a b)

instance {ε α : Type} [DecidableEq ε] [DecidableEq α] : DecidableEq (Except ε α)
  | .error e, .error f =>
    match decEq e f with
    | isTrue h => isTrue (by rw [h])
    | isFalse h => isFalse (by intro hh; cases hh; exact h rfl)
  | .error _, .ok _ => isFalse (by intro h; cases h)
  | .ok _, .error _ => isFalse (by intro h; cases h)
  | .ok a, .ok b =>
    match decEq a b with
    | isTrue h => isTrue (by rw [h])
    | isFalse h => isFalse (by intro hh; cases hh; exact h rfl)

/-! ## Evaluator data model

`EvalVerdict.pass` in the source is whatever JS value the evaluator put
there: a boolean, `null` (evaluation skipped), or — through the
`cleanedResponse && cleanedResponse.length > 0` expression of the
existence evaluator — a string.  `JsPass` captures exactly these shapes so
that the summary's strict `===` comparisons can be modelled faithfully. -/

inductive JsPass where
  | jbool (b : Bool)
  | jnull
  | jstr (s : String)
deriving DecidableEq, Inhabited

/-- A test-case expectation field that may hold a string or an array of
strings (`expected`, `expected_contains`, `criteria`). -/
inductive JsExpected where
  | str (s : String)
  | list (l : List String)
deriving DecidableEq, Inhabited

/-- `expected_json` may be a JSON string (parsed by the evaluator) or an
already-structured value. -/
inductive JsonExpected where
  | raw (s : String)
  | val (j : Json)
deriving DecidableEq, Inhabited

/-- A test case as consumed by the evaluators and the runner.  Absent JS
fields are `none` / `false`. -/
structure TestCase where
  name : String := ""
  prompt : String := ""
  system_prompt : Option String := none
  eval_type : Option String := none
  expected : Option JsExpected := none
  expected_contains : Option JsExpected := none
  expected_regex : Option String := none
  regex_flags : Option String := none
  expected_tool : Option String := none
  expected_args : Option (List String) := none
  expected_json : Option JsonExpected := none
  expected_semantic : Option String := none
  reference : Option String := none
  gold : Option String := none
  similarity_threshold : Option Rat := none
  safety_check : Bool := false
  criteria : Option JsExpected := none
  temperature : Option DecNum := none
  max_tokens : Option DecNum := none
deriving DecidableEq, Inhabited

/-- An evaluator verdict (`{pass, score, reason, evalType, …}`). -/
structure Verdict where
  pass : JsPass
  score : Option Rat
  reason : String
  evalType : String
  parsed : Option (Option String × List String) := none
  judgeResponse : Option String := none
deriving DecidableEq, Inhabited

/-- The `options` argument of `evaluate`. -/
structure EvalOptions where
  judgeProvider : Option String := none
  judgeModel : Option String := none
  threshold : Option Rat := none
deriving Inhabited

/-- JS truthiness of an optional string (`undefined` and `''` are falsy). -/
def truthyStr : Option String → Bool
  | some s => s ≠ ""
  | none => false

/-- JS truthiness of an expectation value (arrays are always truthy). -/
def truthyExp : Option JsExpected → Bool
  | some (.str s) => s ≠ ""
  | some (.list _) => true
  | none => false

/-- JS truthiness of an `expected_json` value (objects are truthy). -/
def truthyJsonExp : Option JsonExpected → Bool
  | some (.raw s) => s ≠ ""
  | some (.val _) => true
  | none => false

/-- JS `a || b` on expectation fields. -/
def jsOrExp (a b : Option JsExpected) : Option JsExpected :=
  if truthyExp a then a else b

/-- JS `a || b` on optional strings. -/
def jsOrStrOpt (a b : Option String) : Option String :=
  if truthyStr a then a else b

/-- JS `a || fallback` where the fallback is a present string. -/
def firstTruthyStr (a : Option String) (fallback : String) : String :=
  match a with
  | some s => if s = "" then fallback else s
  | none => fallback

/-- JS `a || b` on numbers (`0` is falsy). -/
def ratOr (a : Option Rat) (b : Rat) : Rat :=
  match a with
  | some x => if x = 0 then b else x
  | none => b

/-- JS `toString()` of an expectation value (arrays join with commas). -/
def expToString : JsExpected → String
  | .str s => s
  | .list l => jsJoin "," l

/-- `(testCase.expected || '').toString()`. -/
def expOrEmpty : Option JsExpected → String
  | some e => expToString e
  | none => ""

/-- String interpolation display of an expectation (`undefined` when absent). -/
def expDisplay : Option JsExpected → String
  | none => "undefined"
  | some e => expToString e

/-- `detectEvalType(testCase)`: infer the evaluator from the most specific
populated field, in the source's fixed priority order. -/
def detectEvalType (tc : TestCase) : String :=
  if truthyStr tc.expected_tool then "tool_call"
  else if truthyJsonExp tc.expected_json then "json_match"
  else if truthyStr tc.expected_regex then "regex"
  else if truthyExp tc.expected_contains then "contains"
  else if truthyStr tc.expected_semantic then "semantic_similarity"
  else if tc.safety_check then "safety"
  else if truthyExp tc.expected then "exact_match"
  else if truthyExp tc.criteria then "llm_judge"
  else "existence"

/-- `testCase.eval_type || detectEvalType(testCase)`. -/
def selType (tc : TestCase) : String :=
  match tc.eval_type with
  | some s => if s = "" then detectEvalType tc else s
  | none => detectEvalType tc

/-- Environment of external collaborators for the evaluators: the
`JUDGE_PROVIDER` / `DEFAULT_PROVIDER` environment variables, the outcome of
the judge model call (keyed by the judge prompt), the JS `RegExp`
compile-and-test step of `regexMatch` (its patterns are opaque data here),
the embedding-based similarity call of `similarity.mjs`, and the verdict of
the pure, total, throw-free `safetyEval` collaborator of `safety.mjs`. -/
structure Env where
  judgeProviderEnv : Option String := none
  defaultProviderEnv : Option String := none
  judgeCall : String → Except String String := fun _ => .error "fetch failed"
  regexTest : Option String → String → String → Except String Bool := fun _ _ _ => .ok false
  semanticSim : String → String → Except String Rat := fun _ _ => .error "no provider"
  safetyVerdict : TestCase → String → Verdict := fun _ _ => default

/-! ## The evaluator variants -/

/-- `exactMatch`: case-insensitive, trimmed string equality. -/
def exactMatch (tc : TestCase) (resp : String) : Verdict :=
  let expected := jsLower (jsTrim (expOrEmpty tc.expected))
  let actual := jsLower (jsTrim resp)
  let pass := actual == expected
  { pass := .jbool pass
    score := some (if pass then 1 else 0)
    reason := if pass then "Exact match"
      else "Expected \"" ++ expDisplay tc.expected ++ "\", got \"" ++ jsTake resp 100 ++ "...\""
    evalType := "exact_match" }

/-- `containsMatch`: every expected substring must occur (case-insensitive);
score is the fraction found.  When both `expected_contains` and `expected`
are absent, the JS `[undefined]` list makes `e.toString()` throw. -/
def containsMatch (tc : TestCase) (resp : String) : Except String Verdict :=
  match jsOrExp tc.expected_contains tc.expected with
  | none => .error "TypeError: Cannot read properties of undefined (reading \x27toString\x27)"
  | some v =>
    let expectedList := match v with
      | .list l => l
      | .str s => [s]
    let responseLower := jsLower resp
    let ms := expectedList.filter (fun e => sContains responseLower (jsLower e))
    let pass := ms.length == expectedList.length
    let score : Rat :=
      if expectedList.length > 0 then (ms.length : Rat) / (expectedList.length : Rat) else 0
    .ok { pass := .jbool pass
          score := some score
          reason := if pass then "Contains all expected: " ++ jsJoin ", " ms
            else "Missing: " ++ jsJoin ", " (expectedList.filter (fun e => !(ms.contains e)))
          evalType := "contains" }

/-- The regex pattern `regexMatch` compiles: `expected_regex || expected`
(`none` models JS `undefined`, which `new RegExp` treats as the empty
pattern). -/
def regexPat (tc : TestCase) : Option String :=
  match tc.expected_regex with
  | some s => if s ≠ "" then some s else (tc.expected.map expToString)
  | none => tc.expected.map expToString

/-- `regexMatch`: compile and test via the `RegExp` oracle; a compile
error is converted by the `try/catch` into a failing verdict. -/
def regexMatch (env : Env) (tc : TestCase) (resp : String) : Verdict :=
  let pat := regexPat tc
  let flags := firstTruthyStr tc.regex_flags "i"
  match env.regexTest pat flags resp with
  | .ok b =>
    { pass := .jbool b
      score := some (if b then 1 else 0)
      reason := (if b then "Matches pattern: " else "Does not match pattern: ") ++
        (match pat with | some s => s | none => "undefined")
      evalType := "regex" }
  | .error e =>
    { pass := .jbool false, score := some 0, reason := "Invalid regex: " ++ e
      evalType := "regex" }

/-! ## `toolCallMatch` and its response parsers

The source tries three regexes in order and takes the first that matches
anywhere in the response:
`/TOOL:\s*(\w+)\s*\(([^)]*)\)/i`,
`/tool[_\s]?call:\s*(\w+)\s*\(([^)]*)\)/i`,
`/"tool"\s*:\s*"(\w+)".*"args"\s*:\s*\[([^\]]*)\]/is`. -/

/-- Skip `\s*`. -/
def dropWsJs (l : List Char) : List Char := l.dropWhile jsWsB

/-- After the `TOOL:`-style keyword, parse `\s*(\w+)\s*\(([^)]*)\)`:
the character classes are disjoint, so the regex backtracking is the
deterministic greedy scan written here. -/
def pToolTail (l : List Char) : Option (String × String) :=
  let l1 := dropWsJs l
  let nm := l1.takeWhile jsWordB
  if nm.isEmpty then none
  else
    match dropWsJs (l1.drop nm.length) with
    | '(' :: rest =>
      let args := rest.takeWhile (fun c => c ≠ ')')
      if rest.drop args.length = [] then none
      else some (String.mk nm, String.mk args)
    | _ => none

/-- Leftmost match of pattern 1 (`TOOL: name(args)`). -/
def scanPat1 : List Char → Option (String × String)
  | [] => none
  | c :: cs =>
    match (if ciStartsWith ['t', 'o', 'o', 'l', ':'] (c :: cs)
           then pToolTail (List.drop 5 (c :: cs)) else none) with
    | some r => some r
    | none => scanPat1 cs

/-- Attempt pattern 2 (`tool[_\s]?call: name(args)`) at one position. -/
def tryPat2At (l : List Char) : Option (String × String) :=
  if ciStartsWith ['t', 'o', 'o', 'l'] l then
    let r := List.drop 4 l
    match r with
    | c :: cs =>
      if (c = '_' || jsWsB c) && ciStartsWith ['c', 'a', 'l', 'l', ':'] cs then
        pToolTail (List.drop 5 cs)
      else if ciStartsWith ['c', 'a', 'l', 'l', ':'] r then
        pToolTail (List.drop 5 r)
      else none
    | [] => none
  else none

/-- Leftmost match of pattern 2. -/
def scanPat2 : List Char → Option (String × String)
  | [] => none
  | c :: cs =>
    match tryPat2At (c :: cs) with
    | some r => some r
    | none => scanPat2 cs

/-- Attempt the `"args"\s*:\s*\[([^\]]*)\]` part of pattern 3 at one
position. -/
def tryArgsAt (l : List Char) : Option String :=
  if ciStartsWith ['"', 'a', 'r', 'g', 's', '"'] l then
    match dropWsJs (List.drop 6 l) with
    | ':' :: r2 =>
      match dropWsJs r2 with
      | '[' :: r3 =>
        let args := r3.takeWhile (fun c => c ≠ ']')
        if r3.drop args.length = [] then none else some (String.mk args)
      | _ => none
    | _ => none
  else none

/-- The greedy `.*` of pattern 3 binds the `"args"` group to its last
viable occurrence. -/
def findLastArgs : List Char → Option String
  | [] => none
  | c :: cs =>
    match findLastArgs cs with
    | some r => some r
    | none => tryArgsAt (c :: cs)

/-- Attempt pattern 3 (`"tool": "name" … "args": […]`) at one position. -/
def tryPat3At (l : List Char) : Option (String × String) :=
  if ciStartsWith ['"', 't', 'o', 'o', 'l', '"'] l then
    match dropWsJs (List.drop 6 l) with
    | ':' :: r2 =>
      match dropWsJs r2 with
      | '"' :: r4 =>
        let nm := r4.takeWhile jsWordB
        if nm.isEmpty then none
        else
          match r4.drop nm.length with
          | '"' :: r5 => (findLastArgs r5).map (fun args => (String.mk nm, args))
          | _ => none
      | _ => none
    | _ => none
  else none

/-- Leftmost match of pattern 3. -/
def scanPat3 : List Char → Option (String × String)
  | [] => none
  | c :: cs =>
    match tryPat3At (c :: cs) with
    | some r => some r
    | none => scanPat3 cs

/-- `match[2].split(',').map(a => a.trim().replace(/["']/g, '')).filter(a => a)`. -/
def parseArgsList (args : String) : List String :=
  ((jsSplitComma args).map
    (fun a => String.mk ((jsTrim a).data.filter
      (fun c => c ≠ '"' && c ≠ Char.ofNat 39)))).filter (fun a => a ≠ "")

/-- The three-syntax tool-call parser: first matching pattern wins; the
captured name is lower-cased. -/
def parseToolCall (resp : String) : Option (String × List String) :=
  (match scanPat1 resp.data with
   | some r => some r
   | none =>
     match scanPat2 resp.data with
     | some r => some r
     | none => scanPat3 resp.data).map
    (fun r => match r with | (nm, args) => (jsLower nm, parseArgsList args))

/-- `/TOOL:\s*none/i` anywhere in the response. -/
def scanToolNone : List Char → Bool
  | [] => false
  | c :: cs =>
    (ciStartsWith ['t', 'o', 'o', 'l', ':'] (c :: cs) &&
      ciStartsWith ['n', 'o', 'n', 'e'] (dropWsJs (List.drop 5 (c :: cs)))) ||
    scanToolNone cs

/-- The explicit "no tool" signal: `/TOOL:\s*none/i` or `/no tool/i`. -/
def noToolSignal (resp : String) : Bool :=
  scanToolNone resp.data || ciOccursB ['n', 'o', ' ', 't', 'o', 'o', 'l'] resp.data

/-- `toolCallMatch`: additive 0.5 + 0.5 scoring over tool name and
arguments.  When `expected_tool` is absent (and the type was forced), the
JS `expectedTool.toLowerCase()` throws. -/
def toolCallMatch (tc : TestCase) (resp : String) : Except String Verdict :=
  match tc.expected_tool with
  | none => .error "TypeError: Cannot read properties of undefined (reading \x27toLowerCase\x27)"
  | some expectedTool =>
    let expectedArgs := tc.expected_args.getD []
    let pr : Option String × List String :=
      match parseToolCall resp with
      | some (nm, args) => (some nm, args)
      | none => (if noToolSignal resp then some "none" else none, [])
    let parsedTool := pr.1
    let parsedArgs := pr.2
    let toolMatch := parsedTool == some (jsLower expectedTool)
    let argsMatch := expectedArgs.isEmpty ||
      expectedArgs.all (fun arg => parsedArgs.any (fun pa => sContains (jsLower pa) (jsLower arg)))
    let pass := toolMatch && argsMatch
    let score : Rat := (if toolMatch then (1 : Rat) / 2 else 0) + (if argsMatch then (1 : Rat) / 2 else 0)
    let reason :=
      if pass then
        "Correct tool: " ++ (match parsedTool with | some t => t | none => "null") ++
          "(" ++ jsJoin ", " parsedArgs ++ ")"
      else if parsedTool = none then "Could not parse tool call from response"
      else if !toolMatch then
        "Wrong tool: expected " ++ expectedTool ++ ", got " ++
          (match parsedTool with | some t => t | none => "null")
      else
        "Wrong args: expected " ++ jsJoin ", " expectedArgs ++ ", got " ++ jsJoin ", " parsedArgs
    .ok { pass := .jbool pass, score := some score, reason, evalType := "tool_call"
          parsed := some (parsedTool, parsedArgs) }

/-! ## `jsonMatch` -/

/-- Everything up to and including the last occurrence of `ch`. -/
def takeToLast (ch : Char) (l : List Char) : List Char :=
  (l.reverse.dropWhile (fun c => c ≠ ch)).reverse

/-- The extraction regex `/\{[\s\S]*\}|\[[\s\S]*\]/`: leftmost start,
object alternative preferred, greedy to the LAST closing delimiter. -/
def greedyExtract : List Char → Option (List Char)
  | [] => none
  | c :: cs =>
    if c = '{' && cs.contains '}' then some (c :: takeToLast '}' cs)
    else if c = '[' && cs.contains ']' then some (c :: takeToLast ']' cs)
    else greedyExtract cs

/-- `Object.keys` (arrays expose their index keys). -/
def jsonKeys : Json → List String
  | .obj l => l.map (fun kv => kv.1)
  | .arr l => (List.range l.length).map natRepr
  | _ => []

/-- JS property lookup on a parsed JSON value. -/
def jsonGet : Json → String → Option Json
  | .obj l, k => (l.find? (fun kv => kv.1 == k)).map (fun kv => kv.2)
  | .arr l, k =>
    match k.toNat? with
    | some i => l.get? i
    | none => none
  | _, _ => none

/-- `key in actual`. -/
def jsonHas (j : Json) (k : String) : Bool := (jsonGet j k).isSome

/-- One key of the expected structure matches: wildcard `"*"` needs mere
presence, anything else needs `JSON.stringify` equality. -/
def keyMatched (expected actual : Json) (k : String) : Bool :=
  match jsonGet expected k with
  | some (.str "*") => jsonHas actual k
  | some v =>
    match jsonGet actual k with
    | some av => jsonStringify av == jsonStringify v
    | none => false
  | none => false

/-- The failing verdict produced by `jsonMatch`'s `catch`. -/
def jsonCatchVerdict (e : String) : Verdict :=
  { pass := .jbool false, score := some 0, reason := "JSON parse error: " ++ e
    evalType := "json_match" }

/-- `jsonMatch`: greedy-extract, parse, then require every expected key to
be wildcard-present or stringify-equal.  All failure modes inside the
`try` are converted to verdicts. -/
def jsonMatch (tc : TestCase) (resp : String) : Verdict :=
  match greedyExtract resp.data with
  | none =>
    { pass := .jbool false, score := some 0, reason := "No JSON found in response"
      evalType := "json_match" }
  | some jtxt =>
    match jsonParse (String.mk jtxt) with
    | .error e => jsonCatchVerdict e
    | .ok actual =>
      match (match tc.expected_json with
             | some (.raw s) => jsonParse s
             | some (.val j) => .ok j
             | none => .error "Cannot convert undefined or null to object") with
      | .error e => jsonCatchVerdict e
      | .ok expected =>
        let requiredKeys := jsonKeys expected
        let matched := requiredKeys.filter (keyMatched expected actual)
        let pass := matched.length == requiredKeys.length
        let score : Rat :=
          if requiredKeys.length > 0 then (matched.length : Rat) / (requiredKeys.length : Rat) else 1
        { pass := .jbool pass
          score := some score
          reason := if pass then "JSON structure matches"
            else "Missing/wrong keys: " ++
              jsJoin ", " (requiredKeys.filter (fun k => !(matched.contains k)))
          evalType := "json_match" }

/-! ## `llmJudge` and the judge-provider resolution -/

/-- The provider registry of `providers/index.mjs`. -/
def providerRegistry : List String := ["ollama", "openrouter", "openai", "anthropic", "google"]

/-- `getDefaultJudgeProvider`: resolve
`JUDGE_PROVIDER || DEFAULT_PROVIDER || 'ollama'` against the registry; its
`catch` rethrows any failure as `'No judge provider available'`, which then
escapes `llmJudge` (the resolution happens outside `llmJudge`'s `try`). -/
def getDefaultJudgeProvider (env : Env) : Except String String :=
  let nm := jsLower (firstTruthyStr env.judgeProviderEnv
    (firstTruthyStr env.defaultProviderEnv "ollama"))
  if providerRegistry.contains nm then .ok nm
  else .error "No judge provider available"

/-- `testCase.criteria || ['relevance', 'accuracy']`, normalized to a list. -/
def criteriaListOf (tc : TestCase) : List String :=
  match jsOrExp tc.criteria (some (.list ["relevance", "accuracy"])) with
  | some (.list l) => l
  | some (.str s) => [s]
  | none => []

/-- The judge prompt assembled by `llmJudge` (whitespace layout is
approximate; no claim inspects the prompt text). -/
def judgePromptFor (tc : TestCase) (resp : String) : String :=
  "You are an evaluation judge. Grade the following response based on these criteria: " ++
    jsJoin ", " (criteriaListOf tc) ++ ".\n\nQUESTION/PROMPT:\n" ++ tc.prompt ++
    "\n\nRESPONSE TO EVALUATE:\n" ++ resp ++ "\n\n" ++
    (if truthyExp tc.expected then
      "EXPECTED/REFERENCE (if helpful):\n" ++ expOrEmpty tc.expected else "") ++
    "\n\nInstructions:\n1. Evaluate the response against each criterion\n" ++
    "2. Give a score from 0-100\n3. Provide brief reasoning\n\n" ++
    "Respond in this exact format:\nSCORE: [number 0-100]\nPASS: [YES or NO]\n" ++
    "REASON: [one sentence explanation]"

/-- `\s*(\d+)` after a keyword of length `skip`. -/
def tryDigitsAfter (skip : Nat) (l : List Char) : Option Nat :=
  let r := dropWsJs (List.drop skip l)
  let ds := r.takeWhile jsDigitB
  if ds.isEmpty then none else some (digitsToNat ds)

/-- Leftmost match of `/SCORE:\s*(\d+)/i`, as `parseInt` of the capture. -/
def findScoreNat : List Char → Option Nat
  | [] => none
  | c :: cs =>
    match (if ciStartsWith ['s', 'c', 'o', 'r', 'e', ':'] (c :: cs)
           then tryDigitsAfter 6 (c :: cs) else none) with
    | some n => some n
    | none => findScoreNat cs

/-- Leftmost match of `/PASS:\s*(YES|NO)/i`, as the YES/NO capture. -/
def findPassYes : List Char → Option Bool
  | [] => none
  | c :: cs =>
    match (if ciStartsWith ['p', 'a', 's', 's', ':'] (c :: cs) then
             let r := dropWsJs (List.drop 5 (c :: cs))
             if ciStartsWith ['y', 'e', 's'] r then some true
             else if ciStartsWith ['n', 'o'] r then some false
             else none
           else none) with
    | some b => some b
    | none => findPassYes cs

/-- Leftmost match of `/REASON:\s*(.+?)(?:\n|$)/is`, trimmed. -/
def findReasonStr : List Char → Option String
  | [] => none
  | c :: cs =>
    match (if ciStartsWith ['r', 'e', 'a', 's', 'o', 'n', ':'] (c :: cs) then
             match dropWsJs (List.drop 7 (c :: cs)) with
             | [] => none
             | r => some (jsTrim (String.mk (r.takeWhile (fun ch => ch ≠ '\n'))))
           else none) with
    | some s => some s
    | none => findReasonStr cs

/-- Parse the (already sanitized) judge reply into a verdict: a missing
SCORE line degrades to 0.5; a missing PASS line passes iff score ≥ 0.7; a
missing REASON line degrades to a fixed reason. -/
def judgeParseVerdict (jr : String) : Verdict :=
  let score : Rat :=
    match findScoreNat jr.data with
    | some n => (n : Rat) / 100
    | none => 1 / 2
  let pass : Bool :=
    match findPassYes jr.data with
    | some b => b
    | none => decide (score ≥ 7 / 10)
  { pass := .jbool pass
    score := some score
    reason := (findReasonStr jr.data).getD "LLM judge evaluation"
    evalType := "llm_judge"
    judgeResponse := some (jsTake jr 500) }

/-- `llmJudge`: resolve the judge provider (outside the `try`; a failure
here escapes), call the judge, sanitize its reply with
`stripThinkingTags`, parse it; a judge-call failure is caught and turned
into a failing verdict carrying the error text. -/
def llmJudge (env : Env) (tc : TestCase) (resp : String) (opts : EvalOptions) :
    Except String Verdict :=
  match (match opts.judgeProvider with
         | some p => Except.ok p
         | none => getDefaultJudgeProvider env) with
  | .error e => .error e
  | .ok _ =>
    match env.judgeCall (judgePromptFor tc resp) with
    | .error e =>
      .ok { pass := .jbool false, score := some 0, reason := "LLM judge error: " ++ e
            evalType := "llm_judge" }
    | .ok t => .ok (judgeParseVerdict (stripThinkingTags t))

/-! ## The remaining variants and the dispatch -/

/-- `semanticSimilarityEval` (similarity.mjs): the embedding call is an
oracle; both the no-expected path and a failed call give inconclusive
(`pass: null`) verdicts, the `try/catch` swallowing the failure. -/
def semanticSimilarityEval (env : Env) (tc : TestCase) (resp : String) (opts : EvalOptions) :
    Verdict :=
  let expectedOpt : Option String :=
    if truthyExp tc.expected then some (expOrEmpty tc.expected)
    else jsOrStrOpt tc.reference tc.gold
  if !truthyStr expectedOpt then
    { pass := .jnull, score := none, reason := "No expected text for semantic similarity"
      evalType := "semantic_similarity" }
  else
    match env.semanticSim (expectedOpt.getD "") resp with
    | .error e =>
      { pass := .jnull, score := none, reason := "Similarity error: " ++ e
        evalType := "semantic_similarity" }
    | .ok sim =>
      let threshold : Rat := ratOr tc.similarity_threshold (ratOr opts.threshold (7 / 10))
      { pass := .jbool (decide (sim ≥ threshold))
        score := some sim
        reason := "Similarity vs threshold " ++ toString (threshold * 100) ++ "%"
        evalType := "semantic_similarity" }

/-- `customEval`: the placeholder always passes. -/
def customEval (_tc : TestCase) (_resp : String) : Verdict :=
  { pass := .jbool true, score := some 1, reason := "Custom evaluation not implemented"
    evalType := "custom" }

/-- The default/existence verdict.  `cleanedResponse && cleanedResponse.length > 0`
is the empty string (not `false`) when the sanitized response is empty —
the verdict's `pass` is then a non-Boolean falsy value. -/
def existenceVerdict (cleaned : String) : Verdict :=
  { pass := if cleaned = "" then .jstr "" else .jbool true
    score := some (if cleaned = "" then 0 else 1)
    reason := if cleaned ≠ "" then "Response received" else "No response (or only thinking tags)"
    evalType := "existence" }

/-- The switch of `evaluate`, applied to the sanitized response. -/
def dispatchCleaned (env : Env) (tc : TestCase) (cleaned : String) (opts : EvalOptions) :
    Except String Verdict :=
  match selType tc with
  | "exact_match" => .ok (exactMatch tc cleaned)
  | "contains" => containsMatch tc cleaned
  | "regex" => .ok (regexMatch env tc cleaned)
  | "tool_call" => toolCallMatch tc cleaned
  | "json_match" => .ok (jsonMatch tc cleaned)
  | "llm_judge" => llmJudge env tc cleaned opts
  | "semantic_similarity" => .ok (semanticSimilarityEval env tc cleaned opts)
  | "safety" => .ok (env.safetyVerdict tc cleaned)
  | "custom" => .ok (customEval tc cleaned)
  | _ =>
    if !truthyExp tc.expected && !truthyExp tc.criteria then
      .ok (existenceVerdict cleaned)
    else if truthyExp tc.criteria then llmJudge env tc cleaned opts
    else .ok (exactMatch tc cleaned)

/-- `evaluate(testCase, response, options)`: sanitize, then dispatch. -/
def evaluate (env : Env) (tc : TestCase) (resp : String) (opts : EvalOptions) :
    Except String Verdict :=
  dispatchCleaned env tc (stripThinkingTags resp) opts

/-! ## Response cache (cache.mjs)

`getCacheKey` is `sha256(JSON.stringify({provider, model, messages,
temperature, max_tokens})).hex.substring(0, 16)`.  SHA-256 is implemented
below over `Nat` with explicit `% 2^32`. -/

/-- A chat message. -/
structure Message where
  role : String
  content : String
deriving DecidableEq, Inhabited

/-- The sampling options passed to `provider.complete`; `extra` stands for
any further option fields, which `getCacheKey` does not read. -/
structure CompletionOptions where
  temperature : Option DecNum := none
  max_tokens : Option DecNum := none
  extra : List (String × String) := []
deriving DecidableEq, Inhabited

/-- The serialized request tuple hashed by `getCacheKey`
(`JSON.stringify` drops fields whose value is `undefined`). -/
def cacheKeyJson (provider model : String) (messages : List Message)
    (options : CompletionOptions) : Json :=
  .obj ([("provider", .str provider), ("model", .str model),
         ("messages", .arr (messages.map
           (fun m => .obj [("role", .str m.role), ("content", .str m.content)])))] ++
    (match options.temperature with
     | some t => [("temperature", .num t)]
     | none => []) ++
    (match options.max_tokens with
     | some mt => [("max_tokens", .num mt)]
     | none => []))

/-- UTF-8 encoding of one character. -/
def utf8Encode (c : Char) : List Nat :=
  let n := c.toNat
  if n < 128 then [n]
  else if n < 2048 then [192 + n / 64, 128 + n % 64]
  else if n < 65536 then [224 + n / 4096, 128 + (n / 64) % 64, 128 + n % 64]
  else [240 + n / 262144, 128 + (n / 4096) % 64, 128 + (n / 64) % 64, 128 + n % 64]

/-- UTF-8 bytes of a string. -/
def utf8Bytes (s : String) : List Nat := List.flatten (s.data.map utf8Encode)

/-- 2^32. -/
def m32 : Nat := 4294967296

/-- Addition modulo 2^32. -/
def add32 (a b : Nat) : Nat := (a + b) % m32

/-- Bitwise complement within 32 bits. -/
def not32 (a : Nat) : Nat := 4294967295 - a % m32

/-- Right rotation within 32 bits. -/
def rotr32 (r a : Nat) : Nat :=
  let b := a % m32
  b / 2 ^ r + b % 2 ^ r * 2 ^ (32 - r)

/-- Right shift within 32 bits. -/
def shr32 (r a : Nat) : Nat := a % m32 / 2 ^ r

/-- SHA-256 `Ch`. -/
def shaCh (e f g : Nat) : Nat := (e &&& f) ^^^ (not32 e &&& g)

/-- SHA-256 `Maj`. -/
def shaMaj (a b c : Nat) : Nat := (a &&& b) ^^^ (a &&& c) ^^^ (b &&& c)

/-- SHA-256 `Σ0`. -/
def bsig0 (a : Nat) : Nat := rotr32 2 a ^^^ rotr32 13 a ^^^ rotr32 22 a

/-- SHA-256 `Σ1`. -/
def bsig1 (e : Nat) : Nat := rotr32 6 e ^^^ rotr32 11 e ^^^ rotr32 25 e

/-- SHA-256 `σ0`. -/
def ssig0 (x : Nat) : Nat := rotr32 7 x ^^^ rotr32 18 x ^^^ shr32 3 x

/-- SHA-256 `σ1`. -/
def ssig1 (x : Nat) : Nat := rotr32 17 x ^^^ rotr32 19 x ^^^ shr32 10 x

/-- The SHA-256 round constants. -/
def K256 : List Nat :=
  [1116352408, 1899447441, 3049323471, 3921009573, 961987163, 1508970993, 2453635748, 2870763221,
   3624381080, 310598401, 607225278, 1426881987, 1925078388, 2162078206, 2614888103, 3248222580,
   3835390401, 4022224774, 264347078, 604807628, 770255983, 1249150122, 1555081692, 1996064986,
   2554220882, 2821834349, 2952996808, 3210313671, 3336571891, 3584528711, 113926993, 338241895,
   666307205, 773529912, 1294757372, 1396182291, 1695183700, 1986661051, 2177026350, 2456956037,
   2730485921, 2820302411, 3259730800, 3345764771, 3516065817, 3600352804, 4094571909, 275423344,
   430227734, 506948616, 659060556, 883997877, 958139571, 1322822218, 1537002063, 1747873779,
   1955562222, 2024104815, 2227730452, 2361852424, 2428436474, 2756734187, 3204031479, 3329325298]

/-- The SHA-256 initial hash value. -/
def H256 : List Nat :=
  [1779033703, 3144134277, 1013904242, 2773480762, 1359893119, 2600822924, 528734635, 1541459225]

/-- Big-endian 64-bit byte encoding of the message bit length. -/
def be8 (n : Nat) : List Nat :=
  [n / 2 ^ 56 % 256, n / 2 ^ 48 % 256, n / 2 ^ 40 % 256, n / 2 ^ 32 % 256,
   n / 2 ^ 24 % 256, n / 2 ^ 16 % 256, n / 2 ^ 8 % 256, n % 256]

/-- SHA-256 padding: `0x80`, zeros to 56 mod 64, then the bit length. -/
def sha256Pad (msg : List Nat) : List Nat :=
  msg ++ [128] ++ List.replicate ((64 + 55 - msg.length % 64) % 64) 0 ++ be8 (8 * msg.length)

/-- Split into 64-byte blocks (fuelled; the list shrinks every step). -/
def chunks64 : Nat → List Nat → List (List Nat)
  | 0, _ => []
  | _, [] => []
  | f + 1, l => l.take 64 :: chunks64 f (l.drop 64)

/-- The 16 message words of one block. -/
def wordsOfBlock (block : List Nat) : List Nat :=
  (List.range 16).map (fun i =>
    block.getD (4 * i) 0 * 16777216 + block.getD (4 * i + 1) 0 * 65536 +
      block.getD (4 * i + 2) 0 * 256 + block.getD (4 * i + 3) 0)

/-- Message-schedule extension from 16 to 64 words. -/
def extendW (ws : List Nat) : List Nat :=
  (List.range 48).foldl
    (fun acc _ =>
      acc ++ [add32 (add32 (ssig1 (acc.getD (acc.length - 2) 0)) (acc.getD (acc.length - 7) 0))
        (add32 (ssig0 (acc.getD (acc.length - 15) 0)) (acc.getD (acc.length - 16) 0))])
    ws

/-- The eight SHA-256 working variables. -/
structure H8 where
  a : Nat
  b : Nat
  c : Nat
  d : Nat
  e : Nat
  f : Nat
  g : Nat
  h : Nat

/-- One compression round. -/
def shaRound (s : H8) (kw : Nat × Nat) : H8 :=
  let t1 := add32 (add32 (add32 (add32 s.h (bsig1 s.e)) (shaCh s.e s.f s.g)) kw.1) kw.2
  let t2 := add32 (bsig0 s.a) (shaMaj s.a s.b s.c)
  ⟨add32 t1 t2, s.a, s.b, s.c, add32 s.d t1, s.e, s.f, s.g⟩

/-- Compress one 64-byte block into the hash state. -/
def compressBlock (hs : List Nat) (block : List Nat) : List Nat :=
  let ws := extendW (wordsOfBlock block)
  let fin := (K256.zip ws).foldl shaRound
    ⟨hs.getD 0 0, hs.getD 1 0, hs.getD 2 0, hs.getD 3 0,
     hs.getD 4 0, hs.getD 5 0, hs.getD 6 0, hs.getD 7 0⟩
  [add32 (hs.getD 0 0) fin.a, add32 (hs.getD 1 0) fin.b, add32 (hs.getD 2 0) fin.c,
   add32 (hs.getD 3 0) fin.d, add32 (hs.getD 4 0) fin.e, add32 (hs.getD 5 0) fin.f,
   add32 (hs.getD 6 0) fin.g, add32 (hs.getD 7 0) fin.h]

/-- The eight final hash words of a byte message. -/
def sha256Words (msg : List Nat) : List Nat :=
  (chunks64 (sha256Pad msg).length (sha256Pad msg)).foldl compressBlock H256

/-- The 256-bit digest as one natural number. -/
def sha256Nat (msg : List Nat) : Nat :=
  (sha256Words msg).foldl (fun acc h => acc * m32 + h % m32) 0

/-- One lower-case hex digit. -/
def hexDigit (k : Nat) : Char := Char.ofNat (if k < 10 then 48 + k else 87 + k)

/-- Fixed-width big-endian hex digits of a number. -/
def hexDigits : Nat → Nat → List Char
  | 0, _ => []
  | w + 1, n => hexDigits w (n / 16) ++ [hexDigit (n % 16)]

/-- `getCacheKey(provider, model, messages, options)`: the first 16 hex
characters of the SHA-256 of the canonical serialization. -/
def getCacheKey (provider model : String) (messages : List Message)
    (options : CompletionOptions) : String :=
  String.mk ((hexDigits 64 (sha256Nat (utf8Bytes
    (jsonStringify (cacheKeyJson provider model messages options))))).take 16)

/-- Token usage of a completion. -/
structure Usage where
  prompt_tokens : Nat := 0
  completion_tokens : Nat := 0
  total_tokens : Nat := 0
deriving DecidableEq, Inhabited

/-- A provider completion result. -/
structure CompletionResult where
  text : String
  usage : Option Usage := none
  latencyMs : Nat := 0
  cost : Option Rat := none
deriving DecidableEq, Inhabited

/-- A cache file on disk, as seen by `getCachedResponse`: either readable
JSON `{timestamp, response}` or unreadable/corrupt. -/
inductive CacheFile where
  | malformed
  | entry (timestamp : Nat) (response : CompletionResult)
deriving DecidableEq

/-- The on-disk cache, keyed by cache key (`none` = no file). -/
def CacheStore : Type := String → Option CacheFile

/-- The TTL: `parseInt(process.env.CACHE_TTL_MS || '86400000')`. -/
def cacheTtl (env : Option Nat) : Nat := env.getD 86400000

/-- `getCachedResponse(cacheKey)`: absent file, unreadable/corrupt file
(the `catch`), or an entry older than the TTL all yield `null`. -/
def getCachedResponse (store : CacheStore) (now : Nat) (ttlEnv : Option Nat)
    (key : String) : Option CompletionResult :=
  match store key with
  | none => none
  | some .malformed => none
  | some (.entry ts resp) => if now - ts > cacheTtl ttlEnv then none else some resp

/-- `setCachedResponse(cacheKey, response)`: best-effort write; a file
system failure (`writeFail ≠ none`) is logged and swallowed, leaving the
store unchanged — the function is total and never propagates the error. -/
def setCachedResponse (store : CacheStore) (now : Nat) (key : String)
    (resp : CompletionResult) (writeFail : Option String) : CacheStore :=
  match writeFail with
  | some _ => store
  | none => fun k => if k = key then some (.entry now resp) else store k

/-! ## Rate limiter (rate-limiter.mjs) -/

/-- The token-bucket state of one provider's `RateLimiter`. -/
structure RLState where
  requestsPerMinute : Rat
  tokensPerMinute : Rat
  requestTokens : Rat
  tokenBucket : Rat
  lastRefill : Nat

/-- `refill()`: proportional replenishment of both buckets, each capped at
its per-minute ceiling. -/
def refill (st : RLState) (now : Nat) : RLState :=
  let elapsedMinutes : Rat := ((now : Rat) - (st.lastRefill : Rat)) / 60000
  { st with
    requestTokens :=
      min st.requestsPerMinute (st.requestTokens + st.requestsPerMinute * elapsedMinutes)
    tokenBucket :=
      min st.tokensPerMinute (st.tokenBucket + st.tokensPerMinute * elapsedMinutes)
    lastRefill := now }

/-- `canRequest(estimatedTokens)`: refill, then check both buckets. -/
def canRequest (st : RLState) (now : Nat) (estimatedTokens : Rat) : Bool :=
  let st2 := refill st now
  decide (st2.requestTokens ≥ 1 ∧ st2.tokenBucket ≥ estimatedTokens)

/-- `consume(actualTokens)`. -/
def rlConsume (st : RLState) (actualTokens : Rat) : RLState :=
  { st with requestTokens := st.requestTokens - 1,
            tokenBucket := st.tokenBucket - actualTokens }

/-! ## Runner: `runTestCase`, `runTestCaseWithRetry`, run summary

`runTestCase` is wrapped in one big `try/catch`: every throw inside —
provider failure, rate-limiter rethrow, or an evaluator throw — produces
the failing record of the `catch` block.  The cache read, the provider
call, and the cost table are oracle parameters. -/

/-- One execution target. -/
structure ModelConfig where
  provider : Option String := none
  model : String := ""
  temperature : Option DecNum := none
  max_tokens : Option DecNum := none
deriving DecidableEq, Inhabited

/-- The per-execution record appended to the trace. -/
structure ExecutionRecord where
  success : Bool
  testCase : String
  model : String
  provider : String
  text : Option String
  usage : Option Usage
  latencyMs : Nat
  cost : Option Rat
  error : Option String
  pass : JsPass
  score : Option Rat
  evalReason : String
  evalType : String
  fromCache : Bool := false
  retries : Option Nat := none
deriving DecidableEq, Inhabited

/-- The record built by `runTestCase`'s `catch` block. -/
def errorRecord (tc : TestCase) (mc : ModelConfig) (providerName : String)
    (elapsedMs : Nat) (e : String) : ExecutionRecord :=
  { success := false, testCase := tc.name, model := mc.model, provider := providerName
    text := none, usage := none, latencyMs := elapsedMs, cost := none, error := some e
    pass := .jbool false, score := some 0, evalReason := "Error: " ++ e, evalType := "error" }

/-- `runTestCase(testCase, modelConfig, provider, options)`.
`cached` is the outcome of the `getCachedResponse(cacheKey)` read, `call`
the outcome of the rate-limited `provider.complete`, `calcCost` the
pricing table of costs.mjs, and `elapsedMs` the wall clock consumed when
the `catch` fires. -/
def runTestCase (tc : TestCase) (mc : ModelConfig) (providerName : String)
    (cached : Option CompletionResult) (call : Except String CompletionResult)
    (useCache noCache skipJudge : Bool) (env : Env) (opts : EvalOptions)
    (calcCost : String → Usage → Option Rat) (elapsedMs : Nat) : ExecutionRecord :=
  let messages :=
    (if truthyStr tc.system_prompt then [Message.mk "system" (tc.system_prompt.getD "")] else []) ++
      [Message.mk "user" tc.prompt]
  let completionOptions : CompletionOptions :=
    { temperature := some (tc.temperature.getD (mc.temperature.getD ⟨false, 7, -1⟩))
      max_tokens := some (tc.max_tokens.getD (mc.max_tokens.getD ⟨false, 2048, 0⟩)) }
  let _cacheKey := getCacheKey providerName mc.model messages completionOptions
  let resCached := if useCache && !noCache then cached else none
  match (match resCached with
         | some r => Except.ok ({ r with latencyMs := 0 }, true)
         | none => call.map (fun r => (r, false))) with
  | .error e => errorRecord tc mc providerName elapsedMs e
  | .ok (result0, fromCache) =>
    let result :=
      match result0.usage with
      | some u =>
        if (match result0.cost with | none => true | some c => c = 0) then
          { result0 with cost := calcCost mc.model u }
        else result0
      | none => result0
    match (if skipJudge then
             Except.ok { pass := .jnull, score := none, reason := "Evaluation skipped"
                         evalType := "none" }
           else evaluate env tc result.text opts) with
    | .error e => errorRecord tc mc providerName elapsedMs e
    | .ok v =>
      { success := true, testCase := tc.name, model := mc.model, provider := providerName
        text := some result.text, usage := result.usage, latencyMs := result.latencyMs
        cost := result.cost, error := none, pass := v.pass, score := v.score
        evalReason := v.reason, evalType := v.evalType, fromCache := fromCache }

/-- The non-retryable error classes of `runTestCaseWithRetry`. -/
def nonRetryableErr : Option String → Bool
  | some e => sContains e "API key" || sContains e "not configured"
  | none => false

/-- The terminal failing record synthesized on retry exhaustion. -/
def synthRetryRecord (tcName model provider : String) (maxRetries : Nat)
    (lastError : Option String) : ExecutionRecord :=
  { success := false, testCase := tcName, model := model, provider := provider
    text := none, usage := none, latencyMs := 0, cost := none, error := lastError
    pass := .jbool false, score := some 0
    evalReason := "Failed after " ++ natRepr maxRetries ++ " retries: " ++
      (match lastError with | some e => e | none => "null")
    evalType := "error", retries := some maxRetries }

/-- The attempt loop of `runTestCaseWithRetry`: attempts are numbered from
1; `remaining` counts the loop iterations left (`MAX_RETRIES + 1` at the
start). -/
def runRetryGo (exec : Nat → ExecutionRecord) (tcName model provider : String)
    (maxRetries : Nat) : Nat → Nat → Option String → ExecutionRecord
  | 0, _, lastError => synthRetryRecord tcName model provider maxRetries lastError
  | remaining + 1, attempt, _ =>
    let r := exec attempt
    if r.success then (if 1 < attempt then { r with retries := some (attempt - 1) } else r)
    else if nonRetryableErr r.error then r
    else runRetryGo exec tcName model provider maxRetries remaining (attempt + 1) r.error

/-- `runTestCaseWithRetry`: run attempt `n` as `exec n` (each attempt is a
fresh `runTestCase` execution), with non-retryable short-circuit, retry
accounting on late success, and a synthesized terminal record on
exhaustion. -/
def runTestCaseWithRetry (exec : Nat → ExecutionRecord) (tcName model provider : String)
    (maxRetries : Nat) : ExecutionRecord :=
  runRetryGo exec tcName model provider maxRetries (maxRetries + 1) 1 none

/-- The run summary computed at the end of `runEval`. -/
structure RunSummary where
  passed : Nat
  failed : Nat
  errors : Nat
  total : Nat
deriving DecidableEq

/-- `{passed, failed, errors, total}` over the full result set, using the
source's strict `===` comparisons. -/
def computeSummary (results : List ExecutionRecord) : RunSummary :=
  { passed := (results.filter (fun r => r.pass == .jbool true)).length
    failed := (results.filter (fun r => r.pass == .jbool false)).length
    errors := (results.filter (fun r => !r.success)).length
    total := results.length }

/-! # Claims -/

/-- C5. For every rate limiter state, after the proportional refill
(adding capacity × elapsedMinutes to each bucket, capped at the per-minute
ceiling), `canRequest(estimatedTokens)` returns true iff the request
bucket holds at least 1 and the token bucket holds at least
`estimatedTokens`; hence once the request bucket is fully consumed,
`canRequest` stays false until enough wall-clock time has elapsed to
refill at least one request unit (and turns true again as soon as it has,
provided the ceiling is at least 1 and the token bucket suffices). -/
theorem c5_rate_limiter_admission :
    (∀ (st : RLState) (now : Nat) (est : Rat),
      canRequest st now est = true ↔
        (1 ≤ min st.requestsPerMinute
            (st.requestTokens +
              st.requestsPerMinute * (((now : Rat) - (st.lastRefill : Rat)) / 60000)) ∧
         est ≤ min st.tokensPerMinute
            (st.tokenBucket +
              st.tokensPerMinute * (((now : Rat) - (st.lastRefill : Rat)) / 60000)))) ∧
    (∀ (st : RLState) (now : Nat) (est : Rat),
      st.requestTokens ≤ 0 →
      st.requestsPerMinute * (((now : Rat) - (st.lastRefill : Rat)) / 60000) < 1 →
      canRequest st now est = false) ∧
    (∀ (st : RLState) (now : Nat) (est : Rat),
      1 ≤ st.requestsPerMinute →
      1 ≤ st.requestTokens +
            st.requestsPerMinute * (((now : Rat) - (st.lastRefill : Rat)) / 60000) →
      est ≤ min st.tokensPerMinute
            (st.tokenBucket +
              st.tokensPerMinute * (((now : Rat) - (st.lastRefill : Rat)) / 60000)) →
      canRequest st now est = true) := by
  refine ⟨fun st now est => ?_, fun st now est hreq hlt => ?_, fun st now est h1 h2 h3 => ?_⟩
  · simp [canRequest, refill]
  · simp only [canRequest, refill, decide_eq_false_iff_not]
    intro h
    have hmin := h.1
    have : min st.requestsPerMinute
        (st.requestTokens +
          st.requestsPerMinute * (((now : Rat) - (st.lastRefill : Rat)) / 60000)) ≤
        st.requestTokens +
          st.requestsPerMinute * (((now : Rat) - (st.lastRefill : Rat)) / 60000) :=
      min_le_right _ _
    nlinarith [hreq, hlt, hmin, this]
  · simp only [canRequest, refill, decide_eq_true_eq]
    exact ⟨le_min h1 h2, h3⟩

/-- Witness for C5: with the openai-style limits (60 requests/minute,
100000 tokens/minute) and an empty request bucket, admission is denied
half a second after the last refill and granted a full minute after it. -/
theorem c5_rate_limiter_admission_witness :
    canRequest ⟨60, 100000, 0, 100000, 0⟩ 500 1000 = false ∧
    canRequest ⟨60, 100000, 0, 100000, 0⟩ 60000 1000 = true := by
  constructor
  · exact c5_rate_limiter_admission.2.1 ⟨60, 100000, 0, 100000, 0⟩ 500 1000
      (by norm_num) (by norm_num)
  · exact c5_rate_limiter_admission.2.2 ⟨60, 100000, 0, 100000, 0⟩ 60000 1000
      (by norm_num) (by norm_num) (by norm_num)

/-- C6. For every cache key, `get` returns absent exactly when there is no
stored entry, the entry is unreadable/corrupt, or `now − writeTimestamp`
exceeds the TTL (default 86400000 ms = 24 h) — a corrupt entry is treated
as absent, never an error; and `put` never propagates a write failure: a
failed write is swallowed and leaves the store (and hence the caller's
result) unchanged. -/
theorem c6_cache_get_put :
    cacheTtl none = 86400000 ∧
    (∀ (store : CacheStore) (now : Nat) (ttlEnv : Option Nat) (key : String),
      getCachedResponse store now ttlEnv key = none ↔
        (store key = none ∨ store key = some .malformed ∨
          ∃ ts resp, store key = some (.entry ts resp) ∧ now - ts > cacheTtl ttlEnv)) ∧
    (∀ (store : CacheStore) (now : Nat) (key : String) (resp : CompletionResult) (e : String),
      setCachedResponse store now key resp (some e) = store) := by
  refine ⟨rfl, fun store now ttlEnv key => ?_, fun store now key resp e => rfl⟩
  unfold getCachedResponse
  match h : store key with
  | none => simp [h]
  | some .malformed => simp [h]
  | some (.entry ts resp) =>
    by_cases hts : now - ts > cacheTtl ttlEnv
    · simp [h, hts]
    · simp [h, hts]

/-- A failing, retryable attempt. -/
def failsRetryably (exec : Nat → ExecutionRecord) (j : Nat) : Prop :=
  (exec j).success = false ∧ nonRetryableErr (exec j).error = false

/-- While at least one loop iteration remains, the `lastError` accumulator
cannot influence the result (it is overwritten before any exhaustion). -/
theorem runRetryGo_lastError_irrel (exec : Nat → ExecutionRecord) (n m p : String)
    (M : Nat) (rem att : Nat) (le le2 : Option String) :
    runRetryGo exec n m p M (rem + 1) att le =
      runRetryGo exec n m p M (rem + 1) att le2 := by
  unfold runRetryGo
  rfl

/-- Skipping `k` failing retryable attempts reaches attempt `att + k`
while at least one loop iteration remains. -/
theorem runRetryGo_skip (exec : Nat → ExecutionRecord) (n m p : String) (M : Nat) :
    ∀ (k att rem : Nat) (le : Option String),
      (∀ j, att ≤ j → j < att + k → failsRetryably exec j) →
      runRetryGo exec n m p M (k + (rem + 1)) att le =
        runRetryGo exec n m p M (rem + 1) (att + k) le := by
  intro k
  induction k with
  | zero => intro att rem le _; simp
  | succ k ih =>
    intro att rem le hfail
    have hatt : failsRetryably exec att := hfail att le_rfl (by omega)
    have heq : k + 1 + (rem + 1) = (k + (rem + 1)) + 1 := by omega
    rw [heq]
    have step : runRetryGo exec n m p M ((k + (rem + 1)) + 1) att le =
        runRetryGo exec n m p M (k + (rem + 1)) (att + 1) (exec att).error := by
      conv_lhs => rw [runRetryGo]
      simp [hatt.1, hatt.2]
    rw [step, ih (att + 1) rem (exec att).error
      (fun j h1 h2 => hfail j (by omega) (by omega)),
      runRetryGo_lastError_irrel exec n m p M rem (att + 1 + k) (exec att).error le]
    congr 1
    omega

/-- C3. For every execution wrapped by the retry orchestrator:
(0) `runTestCase` itself never sets a `retries` field, so
(1) a first-attempt failure marked non-retryable (missing credentials /
not-configured) is returned immediately as that attempt-1 record, whose
retry count reads as 0;
(2) a success on attempt `k + 1 > 1`, after `k` failing retryable
attempts, reports `retries = k` (so failing twice then succeeding reports
2);
(3) when all `maxRetries + 1` attempts fail retryably, the synthesized
terminal record is failing, carries the last attempt's error, and has
retry count `maxRetries`. -/
theorem c3_retry_orchestrator :
    (∀ (tc : TestCase) (mc : ModelConfig) (pn : String) (cached : Option CompletionResult)
       (call : Except String CompletionResult) (u nc sj : Bool) (env : Env)
       (opts : EvalOptions) (cc : String → Usage → Option Rat) (el : Nat),
      (runTestCase tc mc pn cached call u nc sj env opts cc el).retries = none) ∧
    (∀ (exec : Nat → ExecutionRecord) (n m p : String) (M : Nat),
      (exec 1).success = false → nonRetryableErr (exec 1).error = true →
      runTestCaseWithRetry exec n m p M = exec 1) ∧
    (∀ (exec : Nat → ExecutionRecord) (n m p : String) (M k : Nat),
      1 ≤ k → k ≤ M →
      (∀ j, 1 ≤ j → j ≤ k → failsRetryably exec j) →
      (exec (k + 1)).success = true →
      runTestCaseWithRetry exec n m p M = { exec (k + 1) with retries := some k }) ∧
    (∀ (exec : Nat → ExecutionRecord) (n m p : String) (M : Nat),
      (∀ j, 1 ≤ j → j ≤ M + 1 → failsRetryably exec j) →
      runTestCaseWithRetry exec n m p M =
          synthRetryRecord n m p M ((exec (M + 1)).error) ∧
        (runTestCaseWithRetry exec n m p M).success = false ∧
        (runTestCaseWithRetry exec n m p M).error = (exec (M + 1)).error ∧
        (runTestCaseWithRetry exec n m p M).retries = some M) := by
  refine ⟨fun tc mc pn cached call u nc sj env opts cc el => ?_,
          fun exec n m p M h1 h2 => ?_, fun exec n m p M k hk1 hkM hfail hsucc => ?_,
          fun exec n m p M hfail => ?_⟩
  · unfold runTestCase
    dsimp only
    split
    · rfl
    · split
      · rfl
      · rfl
  · unfold runTestCaseWithRetry
    show runRetryGo exec n m p M (M + 1) 1 none = exec 1
    unfold runRetryGo
    simp [h1, h2]
  · unfold runTestCaseWithRetry
    have hM : M + 1 = k + (M - k + 1) := by omega
    rw [hM, runRetryGo_skip exec n m p M k 1 (M - k) none
      (fun j hj1 hj2 => hfail j hj1 (by omega))]
    unfold runRetryGo
    have h1k : 1 + k = k + 1 := by omega
    rw [h1k]
    simp only [hsucc, if_true]
    have : 1 < k + 1 := by omega
    simp [this]
  · have hlast : failsRetryably exec (M + 1) := hfail (M + 1) (by omega) (by omega)
    have hkey : runTestCaseWithRetry exec n m p M =
        synthRetryRecord n m p M ((exec (M + 1)).error) := by
      unfold runTestCaseWithRetry
      have hM : M + 1 = M + (0 + 1) := by omega
      rw [hM, runRetryGo_skip exec n m p M M 1 0 none
        (fun j hj1 hj2 => hfail j hj1 (by omega)), Nat.add_comm 1 M]
      conv_lhs => rw [runRetryGo]
      simp only [hlast.1, Bool.false_eq_true, if_false, hlast.2]
      conv_lhs => rw [runRetryGo]
    refine ⟨hkey, ?_, ?_, ?_⟩ <;> simp [hkey, synthRetryRecord]

/-- A failing record with a non-retryable (missing credentials) error. -/
def credFailRecord : ExecutionRecord :=
  { success := false, testCase := "t", model := "m", provider := "p"
    text := none, usage := none, latencyMs := 0, cost := none
    error := some "Anthropic API key not configured", pass := .jbool false
    score := some 0, evalReason := "", evalType := "error" }

/-- A failing record with a transient error. -/
def transientFailRecord : ExecutionRecord :=
  { success := false, testCase := "t", model := "m", provider := "p"
    text := none, usage := none, latencyMs := 0, cost := none
    error := some "timeout", pass := .jbool false, score := some 0
    evalReason := "", evalType := "error" }

/-- A successful record. -/
def successRecord : ExecutionRecord :=
  { success := true, testCase := "t", model := "m", provider := "p"
    text := some "hi", usage := none, latencyMs := 5, cost := none
    error := none, pass := .jbool true, score := some 1
    evalReason := "Response received", evalType := "existence" }

/-- An execution that fails transiently on attempts 1 and 2 and succeeds
on attempt 3. -/
def lateSuccessExec (j : Nat) : ExecutionRecord :=
  if j ≤ 2 then transientFailRecord else successRecord

/-- Witness for C3: with `MAX_RETRIES = 2`: an `'API key'` failure stops at
attempt 1; two transient failures followed by a success report 2 retries;
three transient failures exhaust into the synthesized terminal record. -/
theorem c3_retry_orchestrator_witness :
    (runTestCaseWithRetry (fun _ => credFailRecord) "t" "m" "p" 2 = credFailRecord) ∧
    (runTestCaseWithRetry lateSuccessExec "t" "m" "p" 2 =
      { successRecord with retries := some 2 }) ∧
    ((runTestCaseWithRetry (fun _ => transientFailRecord) "t" "m" "p" 2).retries = some 2) := by
  refine ⟨?_, ?_, ?_⟩
  · exact c3_retry_orchestrator.2.1 (fun _ => credFailRecord) "t" "m" "p" 2
      (by decide) (by decide)
  · have h := c3_retry_orchestrator.2.2.1 lateSuccessExec "t" "m" "p" 2 2 (by omega) (by omega)
      (fun j h1 h2 => by
        constructor
        · simp [lateSuccessExec, if_pos h2, transientFailRecord]
        · simp only [lateSuccessExec, if_pos h2]; decide)
      (by decide)
    rw [h]
    have h3 : lateSuccessExec 3 = successRecord := by decide
    rw [h3]
  · exact (c3_retry_orchestrator.2.2.2 (fun _ => transientFailRecord) "t" "m" "p" 2
      (fun j h1 h2 => ⟨rfl, by
        show nonRetryableErr transientFailRecord.error = false
        decide⟩)).2.2.2

/-- The tool name `toolCallMatch` ends up comparing: the parsed capture,
or the `'none'` sentinel when the response carries an explicit no-tool
signal. -/
def parsedToolOf (resp : String) : Option String :=
  match parseToolCall resp with
  | some (nm, _) => some nm
  | none => if noToolSignal resp then some "none" else none

/-- C9. When `expected_args` is empty or absent, the argument half of the
tool-call score is awarded unconditionally: a response with no parseable
tool call and no `'none'` signal still gets score 0.5 with a failing
verdict, and any response whose parsed tool name (sentinel included)
equals the lower-cased expected tool scores 1.0 and passes, regardless of
its parsed arguments. -/
theorem c9_tool_call_empty_args :
    (∀ (tc : TestCase) (tool resp : String),
      tc.expected_tool = some tool →
      tc.expected_args = none ∨ tc.expected_args = some [] →
      parsedToolOf resp = none →
      ∃ v, toolCallMatch tc resp = .ok v ∧
        v.score = some (1 / 2) ∧ v.pass = .jbool false ∧
        v.reason = "Could not parse tool call from response") ∧
    (∀ (tc : TestCase) (tool resp : String),
      tc.expected_tool = some tool →
      tc.expected_args = none ∨ tc.expected_args = some [] →
      parsedToolOf resp = some (jsLower tool) →
      ∃ v, toolCallMatch tc resp = .ok v ∧
        v.score = some 1 ∧ v.pass = .jbool true) := by
  constructor
  · intro tc tool resp hexp hargs hparse
    unfold parsedToolOf at hparse
    unfold toolCallMatch
    rw [hexp]
    have hempty : (tc.expected_args.getD []).isEmpty = true := by
      rcases hargs with h | h <;> simp [h]
    match hp : parseToolCall resp with
    | some (nm, args) => rw [hp] at hparse; simp at hparse
    | none =>
      rw [hp] at hparse
      have hsig : noToolSignal resp = false := by
        by_contra hs
        simp [eq_true_of_ne_false hs] at hparse
      refine ⟨_, rfl, ?_⟩
      simp only [hsig, Bool.false_eq_true, if_false, hempty, Bool.true_or]
      refine ⟨by norm_num, ?_, ?_⟩ <;> simp
  · intro tc tool resp hexp hargs hparse
    unfold parsedToolOf at hparse
    unfold toolCallMatch
    rw [hexp]
    have hempty : (tc.expected_args.getD []).isEmpty = true := by
      rcases hargs with h | h <;> simp [h]
    match hp : parseToolCall resp with
    | some (nm, args) =>
      rw [hp] at hparse
      simp only [Option.some.injEq] at hparse
      refine ⟨_, rfl, ?_⟩
      simp only [hempty, Bool.true_or, hparse, beq_self_eq_true]
      constructor
      · norm_num
      · simp
    | none =>
      rw [hp] at hparse
      by_cases hsig : noToolSignal resp = true
      · simp only [hsig, if_true, Option.some.injEq] at hparse
        refine ⟨_, rfl, ?_⟩
        simp only [hsig, if_true, hempty, Bool.true_or, ← hparse, beq_self_eq_true]
        constructor
        · norm_num
        · simp
      · simp [hsig] at hparse

/-- Witness for C9: expected tool `get_weather` with no `expected_args`:
the unparseable response `"hello there"` scores 0.5 and fails; the
response `TOOL: get_weather(Tokyo)` scores 1.0 and passes even though no
arguments were expected. -/
theorem c9_tool_call_empty_args_witness :
    (∃ v, toolCallMatch { expected_tool := some "get_weather" } "hello there" = .ok v ∧
      v.score = some (1 / 2) ∧ v.pass = .jbool false ∧
      v.reason = "Could not parse tool call from response") ∧
    (∃ v, toolCallMatch { expected_tool := some "get_weather" } "TOOL: get_weather(Tokyo)" =
        .ok v ∧ v.score = some 1 ∧ v.pass = .jbool true) := by
  constructor
  · exact c9_tool_call_empty_args.1 { expected_tool := some "get_weather" }
      "get_weather" "hello there" rfl (Or.inl rfl) (by decide)
  · exact c9_tool_call_empty_args.2 { expected_tool := some "get_weather" }
      "get_weather" "TOOL: get_weather(Tokyo)" rfl (Or.inl rfl) (by decide)

/-- C7. For every judge reply: a missing SCORE line degrades the score to
0.5; a missing PASS line makes the verdict pass exactly when the score is
at least 0.7; and a failing judge call is caught and converted into a
failing verdict (pass false, score 0) whose reason carries the error text
— `llmJudge` returns it instead of throwing. -/
theorem c7_llm_judge_degradation :
    (∀ (env : Env) (tc : TestCase) (resp : String) (opts : EvalOptions) (p t : String),
      opts.judgeProvider = some p →
      env.judgeCall = (fun _ => .ok t) →
      llmJudge env tc resp opts = .ok (judgeParseVerdict (stripThinkingTags t))) ∧
    (∀ jr : String,
      findScoreNat jr.data = none → (judgeParseVerdict jr).score = some (1 / 2)) ∧
    (∀ jr : String,
      findPassYes jr.data = none →
      ((judgeParseVerdict jr).pass = .jbool true ↔
        (7 : Rat) / 10 ≤ (match findScoreNat jr.data with
          | some n => (n : Rat) / 100
          | none => 1 / 2))) ∧
    (∀ (env : Env) (tc : TestCase) (resp : String) (opts : EvalOptions) (p e : String),
      opts.judgeProvider = some p →
      env.judgeCall = (fun _ => .error e) →
      llmJudge env tc resp opts =
        .ok { pass := .jbool false, score := some 0, reason := "LLM judge error: " ++ e
              evalType := "llm_judge" }) := by
  refine ⟨fun env tc resp opts p t hp hc => ?_, fun jr h => ?_, fun jr h => ?_,
          fun env tc resp opts p e hp hc => ?_⟩
  · unfold llmJudge
    rw [hp, hc]
  · simp [judgeParseVerdict, h]
  · simp [judgeParseVerdict, h, JsPass.jbool.injEq, decide_eq_true_eq, ge_iff_le]
  · unfold llmJudge
    rw [hp, hc]

/-- Environment whose judge call fails. -/
def judgeFailEnv : Env := { judgeCall := fun _ => .error "boom" }

/-- Witness for C7: the reply `"hello"` has neither SCORE nor PASS line,
so the score degrades to 0.5 and the pass bit reduces to the 0.7
threshold test; a failing judge call yields the failing verdict with the
error text. -/
theorem c7_llm_judge_degradation_witness :
    ((judgeParseVerdict "hello").score = some (1 / 2)) ∧
    (((judgeParseVerdict "hello").pass = .jbool true ↔
      (7 : Rat) / 10 ≤ (match findScoreNat "hello".data with
        | some n => (n : Rat) / 100
        | none => 1 / 2))) ∧
    (llmJudge judgeFailEnv { name := "t" } "resp" { judgeProvider := some "ollama" } =
      .ok { pass := .jbool false, score := some 0, reason := "LLM judge error: " ++ "boom"
            evalType := "llm_judge" }) := by
  refine ⟨?_, ?_, ?_⟩
  · exact c7_llm_judge_degradation.2.1 "hello" (by decide)
  · exact c7_llm_judge_degradation.2.2.1 "hello" (by decide)
  · exact c7_llm_judge_degradation.2.2.2 judgeFailEnv { name := "t" } "resp"
      { judgeProvider := some "ollama" } "ollama" "boom" rfl rfl

/-- The evaluation types with a dedicated `switch` case in `evaluate`. -/
def handledTypes : List String :=
  ["exact_match", "contains", "regex", "tool_call", "json_match", "llm_judge",
   "semantic_similarity", "safety", "custom"]

/-- The dispatch reaches `llmJudge`: either the selected type is
`llm_judge`, or the `switch` falls through to the default case with a
truthy `criteria` field. -/
def judgeReachable (tc : TestCase) : Prop :=
  selType tc = "llm_judge" ∨ (selType tc ∉ handledTypes ∧ truthyExp tc.criteria = true)

/-- The judge provider resolves without throwing: an explicit
`options.judgeProvider`, or a registered default. -/
def judgeResolves (env : Env) (opts : EvalOptions) : Prop :=
  opts.judgeProvider.isSome = true ∨ (getDefaultJudgeProvider env).isOk = true

/-- `llmJudge` returns (instead of throwing) whenever the judge provider
resolves. -/
theorem llmJudge_isOk (env : Env) (tc : TestCase) (resp : String) (opts : EvalOptions)
    (h : judgeResolves env opts) : (llmJudge env tc resp opts).isOk = true := by
  unfold llmJudge
  match hjp : opts.judgeProvider with
  | some p =>
    dsimp only
    split <;> rfl
  | none =>
    rcases h with h1 | h2
    · rw [hjp] at h1; simp at h1
    · match hres : getDefaultJudgeProvider env with
      | .error e => rw [hres] at h2; simp [Except.isOk, Except.toBool] at h2
      | .ok nm =>
        dsimp only
        split <;> rfl

/-- C1 (counterexample). The claim includes the explicitly forced
`eval_type: 'tool_call'` with no `expected_tool` field among the cases
that must not throw; on that input the dispatch does throw: the JS
`expectedTool.toLowerCase()` raises a `TypeError` that no `try/catch`
intercepts, so `evaluate` propagates an error instead of returning a
verdict. -/
theorem c1_counterexample_forced_tool_call :
    evaluate {} { name := "t", prompt := "p", eval_type := some "tool_call" } "hello" {} =
      .error "TypeError: Cannot read properties of undefined (reading \x27toLowerCase\x27)" := by
  decide

/-- C1 (amended). The dispatch converts every internal failure into a
returned verdict — it never throws — provided the three escape hatches are
excluded: a forced `tool_call` needs `expected_tool` present, a forced
`contains` needs some expected value present, and a dispatch that reaches
`llmJudge` needs the judge-provider resolution (which sits outside
`llmJudge`'s `try`) to succeed. -/
theorem c1_dispatch_total_amended (env : Env) (tc : TestCase) (resp : String)
    (opts : EvalOptions)
    (htool : selType tc = "tool_call" → tc.expected_tool.isSome = true)
    (hcont : selType tc = "contains" → (jsOrExp tc.expected_contains tc.expected).isSome = true)
    (hjudge : judgeReachable tc → judgeResolves env opts) :
    (evaluate env tc resp opts).isOk = true := by
  unfold evaluate dispatchCleaned
  split
  · rfl
  · next heq =>
    have hs := hcont heq
    unfold containsMatch
    match hv : jsOrExp tc.expected_contains tc.expected with
    | some v => rfl
    | none => rw [hv] at hs; simp at hs
  · rfl
  · next heq =>
    have hs := htool heq
    unfold toolCallMatch
    match hv : tc.expected_tool with
    | some t => rfl
    | none => rw [hv] at hs; simp at hs
  · rfl
  · next heq => exact llmJudge_isOk env tc _ opts (hjudge (Or.inl heq))
  · rfl
  · rfl
  · rfl
  · next h1 h2 h3 h4 h5 h6 h7 h8 h9 =>
    split
    · rfl
    · split
      · next hcrit =>
        refine llmJudge_isOk env tc _ opts (hjudge (Or.inr ⟨?_, hcrit⟩))
        simp only [handledTypes, List.mem_cons, List.not_mem_nil, or_false]
        push_neg
        exact ⟨h1, h2, h3, h4, h5, h6, h7, h8, h9⟩
      · rfl

/-- Witness for the amended C1: an existence-only test case (no forced
type, no expectation fields) satisfies all three side conditions, and the
dispatch returns a verdict. -/
theorem c1_dispatch_total_amended_witness :
    (evaluate {} { name := "t", prompt := "p" } "hello" {}).isOk = true :=
  c1_dispatch_total_amended {} { name := "t", prompt := "p" } "hello" {}
    (by decide) (by decide) (fun h => Or.inr (by decide))

/-- Modelled from the spec: the "first balanced object-or-array literal
occurring in the text" that C2 claims `json_match` extracts, as a plain
bracket-depth scan (the spec's words say nothing about strings containing
brackets).  This is the reference the source's `greedyExtract` is compared
against. -/
def balancedSpan : Nat → Int → List Char → Option (List Char)
  | 0, _, _ => none
  | _ + 1, _, [] => none
  | f + 1, depth, c :: rest =>
    let depth2 : Int :=
      if c = '{' ∨ c = '[' then depth + 1
      else if c = '}' ∨ c = ']' then depth - 1
      else depth
    if depth2 = 0 then some [c]
    else (balancedSpan f depth2 rest).map (fun l => c :: l)

/-- Modelled from the spec: scan for the first opening delimiter and take
the shortest balanced span from it. -/
def firstBalancedLiteral : List Char → Option (List Char)
  | [] => none
  | c :: cs =>
    if c = '{' ∨ c = '[' then balancedSpan (c :: cs).length 0 (c :: cs)
    else firstBalancedLiteral cs

/-- C2 (counterexample). On the response `{"a":1} {"b":2}` with expected
`{"a":1}`, the first balanced literal is `{"a":1}`, it parses, and its
only key deep-equals the expected value — the claimed behaviour passes.
The evaluator instead extracts greedily from the first `{` to the *last*
`}` (the JS regex `/\{[\s\S]*\}/` is greedy), gets unparseable text, and
fails with a JSON parse error. -/
theorem c2_counterexample_greedy_extraction :
    (jsonMatch { expected_json := some (.val (Json.obj [("a", Json.num (natNum 1))])) }
        "\x7b\"a\":1\x7d \x7b\"b\":2\x7d").pass = .jbool false ∧
    (jsonMatch { expected_json := some (.val (Json.obj [("a", Json.num (natNum 1))])) }
        "\x7b\"a\":1\x7d \x7b\"b\":2\x7d").reason =
      "JSON parse error: Unexpected non-whitespace character after JSON" ∧
    firstBalancedLiteral "\x7b\"a\":1\x7d \x7b\"b\":2\x7d".data = some "\x7b\"a\":1\x7d".data ∧
    jsonParse "\x7b\"a\":1\x7d" = .ok (Json.obj [("a", Json.num (natNum 1))]) ∧
    (∀ k ∈ jsonKeys (Json.obj [("a", Json.num (natNum 1))]),
      keyMatched (Json.obj [("a", Json.num (natNum 1))])
        (Json.obj [("a", Json.num (natNum 1))]) k = true) := by
  refine ⟨by decide, by decide, by decide, by decide, by decide⟩

/-- C2 (amended). `json_match` extracts the span from the first opening
delimiter that has a matching closer anywhere after it, through the LAST
such closer (greedy, object form preferred) — not the first balanced
literal.  On that extraction: the verdict passes iff every key of the
expected structure is wildcard-present or `JSON.stringify`-equal; a
wildcard `"*"` key is satisfied by mere presence; an unparseable
extraction (and a response with no extractable span) yields a failing
verdict, never a thrown fault. -/
theorem c2_json_match_amended :
    (∀ (tc : TestCase) (resp : String) (e : Json) (s : List Char) (a : Json),
      tc.expected_json = some (.val e) →
      greedyExtract resp.data = some s →
      jsonParse (String.mk s) = .ok a →
      ((jsonMatch tc resp).pass = .jbool true ↔
        ∀ k ∈ jsonKeys e, keyMatched e a k = true)) ∧
    (∀ (e a : Json) (k : String),
      jsonGet e k = some (.str "*") →
      (keyMatched e a k = true ↔ jsonHas a k = true)) ∧
    (∀ (tc : TestCase) (resp : String) (s : List Char) (msg : String),
      greedyExtract resp.data = some s →
      jsonParse (String.mk s) = .error msg →
      jsonMatch tc resp = jsonCatchVerdict msg ∧
        (jsonMatch tc resp).pass = .jbool false) ∧
    (∀ (tc : TestCase) (resp : String),
      greedyExtract resp.data = none →
      (jsonMatch tc resp).pass = .jbool false ∧
        (jsonMatch tc resp).reason = "No JSON found in response") ∧
    ((jsonMatch { expected_json := some (.val (Json.obj [("status", Json.str "*")])) }
        "\x7b\"status\":\"ok\",\"x\":1\x7d").pass = .jbool true) := by
  refine ⟨fun tc resp e s a hexp hext hparse => ?_, fun e a k h => ?_,
          fun tc resp s msg hext hparse => ?_, fun tc resp hext => ?_, by decide⟩
  · unfold jsonMatch
    rw [hext]
    dsimp only
    rw [hparse]
    dsimp only
    rw [hexp]
    dsimp only
    simp only [JsPass.jbool.injEq, beq_iff_eq]
    exact List.filter_length_eq_length
  · unfold keyMatched
    rw [h]
    exact Iff.rfl
  · unfold jsonMatch
    rw [hext]
    dsimp only
    rw [hparse]
    exact ⟨rfl, rfl⟩
  · unfold jsonMatch
    rw [hext]
    exact ⟨rfl, rfl⟩

/-- Witness for the amended C2: on the exact spec example (expected
`{"status":"*"}`, response `{"status":"ok","x":1}`) the greedy extraction
is the whole object, it parses, and the pass bit is exactly the per-key
condition — which holds by the wildcard rule. -/
theorem c2_json_match_amended_witness :
    ((jsonMatch { expected_json := some (.val (Json.obj [("status", Json.str "*")])) }
        "\x7b\"status\":\"ok\",\"x\":1\x7d").pass = .jbool true ↔
      ∀ k ∈ jsonKeys (Json.obj [("status", Json.str "*")]),
        keyMatched (Json.obj [("status", Json.str "*")])
          (Json.obj [("status", Json.str "ok"), ("x", Json.num (natNum 1))]) k = true) ∧
    (keyMatched (Json.obj [("status", Json.str "*")])
        (Json.obj [("status", Json.str "ok"), ("x", Json.num (natNum 1))]) "status" = true ↔
      jsonHas (Json.obj [("status", Json.str "ok"), ("x", Json.num (natNum 1))]) "status" = true) := by
  constructor
  · exact c2_json_match_amended.1
      { expected_json := some (.val (Json.obj [("status", Json.str "*")])) }
      "\x7b\"status\":\"ok\",\"x\":1\x7d" (Json.obj [("status", Json.str "*")])
      "\x7b\"status\":\"ok\",\"x\":1\x7d".data
      (Json.obj [("status", Json.str "ok"), ("x", Json.num (natNum 1))])
      rfl (by decide) (by decide)
  · exact c2_json_match_amended.2.1 (Json.obj [("status", Json.str "*")])
      (Json.obj [("status", Json.str "ok"), ("x", Json.num (natNum 1))]) "status" (by decide)

/-- Filtering with a weaker predicate keeps at least as many elements. -/
theorem filter_length_mono {α : Type} (l : List α) (p q : α → Bool)
    (h : ∀ x ∈ l, p x = true → q x = true) :
    (l.filter p).length ≤ (l.filter q).length := by
  induction l with
  | nil => simp
  | cons a t ih =>
    have iht := ih (fun x hx => h x (List.mem_cons_of_mem a hx))
    simp only [List.filter_cons]
    cases hp : p a with
    | true =>
      have hq := h a (List.mem_cons_self a t) hp
      simp only [hq, if_true, List.length_cons]
      omega
    | false =>
      simp only [Bool.false_eq_true, if_false]
      cases hq : q a with
      | true => simp only [if_true, List.length_cons]; omega
      | false => simp only [Bool.false_eq_true, if_false]; exact iht

/-- The three strict comparisons `=== true`, `=== false`, `=== null` are
mutually exclusive, so their counts sum to at most the list length. -/
theorem count_pass_buckets_le (l : List ExecutionRecord) :
    (l.filter (fun r => r.pass == .jbool true)).length +
      (l.filter (fun r => r.pass == .jbool false)).length +
      (l.filter (fun r => r.pass == .jnull)).length ≤ l.length := by
  induction l with
  | nil => simp
  | cons a t ih =>
    simp only [List.filter_cons, List.length_cons]
    cases ha : a.pass with
    | jbool b => cases b <;> simp [ha] <;> omega
    | jnull => simp [ha]; omega
    | jstr s => simp [ha]; omega

/-- The retry loop preserves the fail-record invariant: every record it
can return with `success = false` (a failing attempt record or the
synthesized terminal record) has `pass = false` and `score = 0`, provided
every attempt record satisfies that. -/
theorem runRetryGo_fail_invariant (exec : Nat → ExecutionRecord) (n m p : String) (M : Nat)
    (hpres : ∀ k, (exec k).success = false →
      (exec k).pass = .jbool false ∧ (exec k).score = some 0) :
    ∀ (rem att : Nat) (le : Option String),
      (runRetryGo exec n m p M rem att le).success = false →
      (runRetryGo exec n m p M rem att le).pass = .jbool false ∧
        (runRetryGo exec n m p M rem att le).score = some 0 := by
  intro rem
  induction rem with
  | zero => intro att le _; exact ⟨rfl, rfl⟩
  | succ rem ih =>
    intro att le
    unfold runRetryGo
    dsimp only
    by_cases hs : (exec att).success = true
    · simp only [hs, if_true]
      by_cases hatt : 1 < att
      · simp only [hatt, if_true]
        intro h
        simp [hs] at h
      · simp only [hatt, if_false]
        intro h
        rw [hs] at h
        cases h
    · have hs2 : (exec att).success = false := by
        cases hh : (exec att).success
        · rfl
        · exact absurd hh hs
      simp only [hs2, Bool.false_eq_true, if_false]
      by_cases hnr : nonRetryableErr (exec att).error = true
      · simp only [hnr, if_true]
        intro _
        exact hpres att hs2
      · simp only [hnr, if_false]
        exact ih (att + 1) (exec att).error

/-- C10 (amended). Every record the pipeline produces with
`success = false` — from `runTestCase`'s `catch` or from retry exhaustion —
also has `pass = false` and `score = 0`; consequently, in the run summary,
`errors ≤ failed` and `passed + failed + nullCount ≤ total`.  The claimed
equality `passed + failed + nullCount = total` does not hold in general:
the existence evaluator can set `pass` to a non-Boolean falsy value (the
empty string), and such a record is counted in none of the three buckets. -/
theorem c10_summary_amended :
    (∀ (tc : TestCase) (mc : ModelConfig) (pn : String) (cached : Option CompletionResult)
       (call : Except String CompletionResult) (u nc sj : Bool) (env : Env)
       (opts : EvalOptions) (cc : String → Usage → Option Rat) (el : Nat),
      (runTestCase tc mc pn cached call u nc sj env opts cc el).success = false →
      (runTestCase tc mc pn cached call u nc sj env opts cc el).pass = .jbool false ∧
        (runTestCase tc mc pn cached call u nc sj env opts cc el).score = some 0) ∧
    (∀ (exec : Nat → ExecutionRecord) (n m p : String) (M : Nat),
      (∀ k, (exec k).success = false →
        (exec k).pass = .jbool false ∧ (exec k).score = some 0) →
      (runTestCaseWithRetry exec n m p M).success = false →
      (runTestCaseWithRetry exec n m p M).pass = .jbool false ∧
        (runTestCaseWithRetry exec n m p M).score = some 0) ∧
    (∀ results : List ExecutionRecord,
      (∀ r ∈ results, r.success = false → r.pass = .jbool false) →
      (computeSummary results).errors ≤ (computeSummary results).failed) ∧
    (∀ results : List ExecutionRecord,
      (computeSummary results).passed + (computeSummary results).failed +
          (results.filter (fun r => r.pass == .jnull)).length ≤
        (computeSummary results).total) := by
  refine ⟨fun tc mc pn cached call u nc sj env opts cc el => ?_,
          fun exec n m p M hpres => ?_, fun results h => ?_, fun results => ?_⟩
  · unfold runTestCase
    dsimp only
    split
    · intro _; exact ⟨rfl, rfl⟩
    · split
      · intro _; exact ⟨rfl, rfl⟩
      · intro h; cases h
  · exact runRetryGo_fail_invariant exec n m p M hpres (M + 1) 1 none
  · have := filter_length_mono results (fun r => !r.success) (fun r => r.pass == .jbool false)
      (fun r hr hp => by
        have hs : r.success = false := by
          simpa using hp
        simp [h r hr hs])
    simpa [computeSummary] using this
  · have := count_pass_buckets_le results
    simpa [computeSummary] using this

/-- Witness for the amended C10: a failed provider call gives a record
with `pass = false`, `score = 0`; the same holds through retry exhaustion;
and `errors ≤ failed` on a one-record result set. -/
theorem c10_summary_amended_witness :
    ((runTestCase { name := "t", prompt := "p" } { model := "m" } "ollama" none
        (.error "boom") true false false {} {} (fun _ _ => none) 7).pass = .jbool false ∧
      (runTestCase { name := "t", prompt := "p" } { model := "m" } "ollama" none
        (.error "boom") true false false {} {} (fun _ _ => none) 7).score = some 0) ∧
    ((runTestCaseWithRetry (fun _ => transientFailRecord) "t" "m" "p" 2).pass = .jbool false ∧
      (runTestCaseWithRetry (fun _ => transientFailRecord) "t" "m" "p" 2).score = some 0) ∧
    (computeSummary [transientFailRecord]).errors ≤
      (computeSummary [transientFailRecord]).failed := by
  refine ⟨?_, ?_, ?_⟩
  · exact c10_summary_amended.1 { name := "t", prompt := "p" } { model := "m" } "ollama" none
      (.error "boom") true false false {} {} (fun _ _ => none) 7 (by decide)
  · exact c10_summary_amended.2.1 (fun _ => transientFailRecord) "t" "m" "p" 2
      (fun k hk => ⟨by show transientFailRecord.pass = .jbool false; decide,
                    by show transientFailRecord.score = some 0; decide⟩)
      (by decide)
  · exact c10_summary_amended.2.2.1 [transientFailRecord] (by
      intro r hr hs
      simp only [List.mem_singleton] at hr
      subst hr
      decide)

/-- The record produced by a successful provider call whose text is only a
thinking block, under the default existence evaluation. -/
def thinkOnlyRecord : ExecutionRecord :=
  runTestCase { name := "t", prompt := "p" } { model := "m" } "ollama" none
    (.ok { text := "<think>x</think>" }) true false false {} {} (fun _ _ => none) 0

/-- C10 (counterexample). A successful execution whose sanitized response
is empty gets the existence evaluator's
`cleanedResponse && cleanedResponse.length > 0`, i.e. the empty string —
a non-Boolean `pass` counted by none of the summary's strict comparisons:
for this one-record run, passed + failed + nullCount = 0 ≠ 1 = total,
refuting the claimed equality. -/
theorem c10_counterexample_existence_empty_pass :
    thinkOnlyRecord.success = true ∧
    thinkOnlyRecord.pass = .jstr "" ∧
    (computeSummary [thinkOnlyRecord]).passed = 0 ∧
    (computeSummary [thinkOnlyRecord]).failed = 0 ∧
    ([thinkOnlyRecord].filter (fun r => r.pass == .jnull)).length = 0 ∧
    (computeSummary [thinkOnlyRecord]).total = 1 ∧
    (computeSummary [thinkOnlyRecord]).passed + (computeSummary [thinkOnlyRecord]).failed +
        ([thinkOnlyRecord].filter (fun r => r.pass == .jnull)).length ≠
      (computeSummary [thinkOnlyRecord]).total := by
  refine ⟨by decide, by decide, by decide, by decide, by decide, by decide, by decide⟩


theorem toNat_eq_lt {c : Char} (h : c.toNat = 60) : c = '<' := by
  have h2 := Char.ofNat_toNat c
  rw [h] at h2
  rw [← h2]

theorem ciStartsWith_lt_head (p : List Char) {c : Char} (cs : List Char) (hc : c ≠ '<') :
    ciStartsWith ('<' :: p) (c :: cs) = false := by
  have ht : lccN c.toNat ≠ 60 := by
    unfold lccN
    split
    · omega
    · intro h60
      exact hc (toNat_eq_lt h60)
  show ((lccN c.toNat == lccN '<'.toNat) && ciStartsWith p cs) = false
  have h60 : lccN '<'.toNat = 60 := by decide
  rw [h60]
  simp [ht]

theorem ciStartsWith_append_self (p rest : List Char) :
    ciStartsWith p (p ++ rest) = true := by
  induction p with
  | nil => rfl
  | cons c cs ih => simp [ciStartsWith, ih]

theorem mismatch_think_thinking (x : List Char) :
    ciStartsWith thinkOpen (thinkingOpen ++ x) = false := by
  simp [thinkOpen, thinkingOpen, ciStartsWith, lccN]

theorem mismatch_think_thinkingClose (x : List Char) :
    ciStartsWith thinkOpen (thinkingClose ++ x) = false := by
  simp [thinkOpen, thinkingClose, ciStartsWith, lccN]

theorem mismatch_thinking_think (x : List Char) :
    ciStartsWith thinkingOpen (thinkOpen ++ x) = false := by
  simp [thinkingOpen, thinkOpen, ciStartsWith, lccN]

theorem mismatch_thinking_thinkClose (x : List Char) :
    ciStartsWith thinkingOpen (thinkClose ++ x) = false := by
  simp [thinkingOpen, thinkClose, ciStartsWith, lccN]


theorem ciOccursB_append_noLt (ps : List Char) {a : List Char} (r : List Char)
    (ha : '<' ∉ a) (hr : ciOccursB ('<' :: ps) r = false) :
    ciOccursB ('<' :: ps) (a ++ r) = false := by
  induction a with
  | nil => simpa using hr
  | cons c a2 ih =>
    have hc : c ≠ '<' := fun h => ha (h ▸ List.mem_cons_self c a2)
    have ih2 := ih (fun h => ha (List.mem_cons_of_mem c h))
    show (ciStartsWith ('<' :: ps) (c :: (a2 ++ r)) || ciOccursB ('<' :: ps) (a2 ++ r)) = false
    rw [ciStartsWith_lt_head ps _ hc, ih2]
    rfl

theorem ciOccursB_of_noLt (ps : List Char) {l : List Char} (h : '<' ∉ l) :
    ciOccursB ('<' :: ps) l = false := by
  have := ciOccursB_append_noLt ps (a := l) [] h rfl
  simpa using this

theorem ciDropThrough_append_noLt (ps : List Char) {b : List Char} (c : List Char)
    (hb : '<' ∉ b) :
    ciDropThrough ('<' :: ps) (b ++ ('<' :: ps) ++ c) = some c := by
  induction b with
  | nil =>
    show ciDropThrough ('<' :: ps) ('<' :: (ps ++ c)) = some c
    unfold ciDropThrough
    rw [if_pos (show ciStartsWith ('<' :: ps) ('<' :: (ps ++ c)) = true from
      ciStartsWith_append_self ('<' :: ps) c)]
    simp
  | cons x b2 ih =>
    have hx : x ≠ '<' := fun h => hb (h ▸ List.mem_cons_self x b2)
    have ih2 := ih (fun h => hb (List.mem_cons_of_mem x h))
    show ciDropThrough ('<' :: ps) (x :: (b2 ++ ('<' :: ps) ++ c)) = some c
    unfold ciDropThrough
    rw [if_neg (by rw [ciStartsWith_lt_head ps _ hx]; exact fun h => Bool.false_ne_true h)]
    exact ih2

theorem ciDropThrough_none_of_noLt (ps : List Char) {b : List Char} (hb : '<' ∉ b) :
    ciDropThrough ('<' :: ps) b = none := by
  induction b with
  | nil => rfl
  | cons x b2 ih =>
    have hx : x ≠ '<' := fun h => hb (h ▸ List.mem_cons_self x b2)
    have ih2 := ih (fun h => hb (List.mem_cons_of_mem x h))
    unfold ciDropThrough
    rw [if_neg (by rw [ciStartsWith_lt_head ps _ hx]; exact fun h => Bool.false_ne_true h)]
    exact ih2

theorem removePairsF_self (ps cl : List Char) :
    ∀ (l : List Char) (fuel : Nat), ciOccursB ('<' :: ps) l = false →
      removePairsF ('<' :: ps) cl fuel l = l := by
  intro l
  induction l with
  | nil => intro fuel _; cases fuel <;> rfl
  | cons c cs ih =>
    intro fuel h
    have h2 : ciStartsWith ('<' :: ps) (c :: cs) = false ∧ ciOccursB ('<' :: ps) cs = false := by
      have := h
      unfold ciOccursB at this
      exact ⟨(Bool.or_eq_false_iff.mp this).1, (Bool.or_eq_false_iff.mp this).2⟩
    cases fuel with
    | zero => rfl
    | succ n =>
      show (if ciStartsWith ('<' :: ps) (c :: cs) = true then _ else
        c :: removePairsF ('<' :: ps) cl n cs) = c :: cs
      rw [if_neg (by rw [h2.1]; exact fun h => Bool.false_ne_true h)]
      rw [ih n h2.2]

theorem removeUnclosed_self (ps : List Char) {l : List Char}
    (h : ciOccursB ('<' :: ps) l = false) :
    removeUnclosed ('<' :: ps) l = l := by
  induction l with
  | nil => rfl
  | cons c cs ih =>
    have h2 : ciStartsWith ('<' :: ps) (c :: cs) = false ∧ ciOccursB ('<' :: ps) cs = false := by
      unfold ciOccursB at h
      exact ⟨(Bool.or_eq_false_iff.mp h).1, (Bool.or_eq_false_iff.mp h).2⟩
    unfold removeUnclosed
    rw [if_neg (by rw [h2.1]; exact fun hh => Bool.false_ne_true hh)]
    rw [ih h2.2]

theorem removeUnclosed_append_noLt (ps : List Char) {a : List Char} (r : List Char)
    (ha : '<' ∉ a) :
    removeUnclosed ('<' :: ps) (a ++ r) = a ++ removeUnclosed ('<' :: ps) r := by
  induction a with
  | nil => rfl
  | cons c a2 ih =>
    have hc : c ≠ '<' := fun h => ha (h ▸ List.mem_cons_self c a2)
    have ih2 := ih (fun h => ha (List.mem_cons_of_mem c h))
    show removeUnclosed ('<' :: ps) (c :: (a2 ++ r)) = c :: (a2 ++ removeUnclosed ('<' :: ps) r)
    rw [show removeUnclosed ('<' :: ps) (c :: (a2 ++ r)) =
      (if ciStartsWith ('<' :: ps) (c :: (a2 ++ r)) = true then []
       else c :: removeUnclosed ('<' :: ps) (a2 ++ r)) from rfl]
    rw [if_neg (by rw [ciStartsWith_lt_head ps _ hc]; exact fun h => Bool.false_ne_true h)]
    rw [ih2]

theorem removeUnclosed_hit (ps : List Char) (r : List Char) :
    removeUnclosed ('<' :: ps) (('<' :: ps) ++ r) = [] := by
  show removeUnclosed ('<' :: ps) ('<' :: (ps ++ r)) = []
  unfold removeUnclosed
  rw [if_pos (by exact ciStartsWith_append_self ('<' :: ps) r)]

theorem removePairsF_append_noLt (ps cl : List Char) :
    ∀ (a : List Char) (rest : List Char) (fuel : Nat), '<' ∉ a →
      (a ++ rest).length ≤ fuel →
      removePairsF ('<' :: ps) cl fuel (a ++ rest) =
        a ++ removePairsF ('<' :: ps) cl (fuel - a.length) rest := by
  intro a
  induction a with
  | nil => intro rest fuel _ _; simp
  | cons c a2 ih =>
    intro rest fuel ha hlen
    have hc : c ≠ '<' := fun h => ha (h ▸ List.mem_cons_self c a2)
    cases fuel with
    | zero => simp at hlen
    | succ n =>
      have hlen2 : (a2 ++ rest).length ≤ n := by simpa using hlen
      show (if ciStartsWith ('<' :: ps) (c :: (a2 ++ rest)) = true then _ else
        c :: removePairsF ('<' :: ps) cl n (a2 ++ rest)) = _
      rw [if_neg (by rw [ciStartsWith_lt_head ps _ hc]; exact fun h => Bool.false_ne_true h)]
      rw [ih rest n (fun h => ha (List.mem_cons_of_mem c h)) hlen2]
      simp


def thinkOpenT : List Char := ['t', 'h', 'i', 'n', 'k', '>']

def thinkCloseT : List Char := ['/', 't', 'h', 'i', 'n', 'k', '>']

def thinkingOpenT : List Char := ['t', 'h', 'i', 'n', 'k', 'i', 'n', 'g', '>']

def thinkingCloseT : List Char := ['/', 't', 'h', 'i', 'n', 'k', 'i', 'n', 'g', '>']

theorem thinkOpen_eq : thinkOpen = '<' :: thinkOpenT := rfl

theorem thinkClose_eq : thinkClose = '<' :: thinkCloseT := rfl

theorem thinkingOpen_eq : thinkingOpen = '<' :: thinkingOpenT := rfl

theorem thinkingClose_eq : thinkingClose = '<' :: thinkingCloseT := rfl

theorem ciOccursB_cons (pat : List Char) (c : Char) (l : List Char) :
    ciOccursB pat (c :: l) = (ciStartsWith pat (c :: l) || ciOccursB pat l) := rfl

theorem ciOccursB_chunk (ps tail x : List Char)
    (hmm : ciStartsWith ('<' :: ps) ('<' :: (tail ++ x)) = false)
    (htail : '<' ∉ tail) (hx : ciOccursB ('<' :: ps) x = false) :
    ciOccursB ('<' :: ps) ('<' :: (tail ++ x)) = false := by
  rw [ciOccursB_cons, hmm]
  rw [ciOccursB_append_noLt ps x htail hx]
  rfl

theorem mm_think_in_thinkingOpen (x : List Char) :
    ciStartsWith ('<' :: thinkOpenT) ('<' :: (thinkingOpenT ++ x)) = false := by
  simp [thinkOpenT, thinkingOpenT, ciStartsWith, lccN]

theorem mm_think_in_thinkingClose (x : List Char) :
    ciStartsWith ('<' :: thinkOpenT) ('<' :: (thinkingCloseT ++ x)) = false := by
  simp [thinkOpenT, thinkingCloseT, ciStartsWith, lccN]

theorem mm_thinking_in_thinkOpen (x : List Char) :
    ciStartsWith ('<' :: thinkingOpenT) ('<' :: (thinkOpenT ++ x)) = false := by
  simp [thinkingOpenT, thinkOpenT, ciStartsWith, lccN]

/-- Restated right-associated close-tag search. -/
theorem ciDropThrough_found (cs : List Char) {b : List Char} (c : List Char)
    (hb : '<' ∉ b) :
    ciDropThrough ('<' :: cs) (b ++ ('<' :: (cs ++ c))) = some c := by
  induction b with
  | nil =>
    show ciDropThrough ('<' :: cs) ('<' :: (cs ++ c)) = some c
    unfold ciDropThrough
    rw [if_pos (show ciStartsWith ('<' :: cs) ('<' :: (cs ++ c)) = true from
      ciStartsWith_append_self ('<' :: cs) c)]
    simp
  | cons x b2 ih =>
    have hx : x ≠ '<' := fun h => hb (h ▸ List.mem_cons_self x b2)
    have ih2 := ih (fun h => hb (List.mem_cons_of_mem x h))
    show ciDropThrough ('<' :: cs) (x :: (b2 ++ ('<' :: (cs ++ c)))) = some c
    unfold ciDropThrough
    rw [if_neg (by rw [ciStartsWith_lt_head cs _ hx]; exact fun h => Bool.false_ne_true h)]
    exact ih2

/-- One paired removal at the open tag: delete through the earliest close
and continue on the '<'-free remainder. -/
theorem removePairsF_at_open (ps cs b c : List Char) (fuel : Nat)
    (hb : '<' ∉ b) (hc : '<' ∉ c) (hfuel : 1 ≤ fuel) :
    removePairsF ('<' :: ps) ('<' :: cs) fuel
      ('<' :: (ps ++ (b ++ ('<' :: (cs ++ c))))) = c := by
  cases fuel with
  | zero => omega
  | succ n =>
    show (if ciStartsWith ('<' :: ps) ('<' :: (ps ++ (b ++ ('<' :: (cs ++ c))))) = true then
        match ciDropThrough ('<' :: cs)
          (List.drop ('<' :: ps).length ('<' :: (ps ++ (b ++ ('<' :: (cs ++ c)))))) with
        | some rest => removePairsF ('<' :: ps) ('<' :: cs) n rest
        | none => '<' :: removePairsF ('<' :: ps) ('<' :: cs) n (ps ++ (b ++ ('<' :: (cs ++ c))))
      else '<' :: removePairsF ('<' :: ps) ('<' :: cs) n (ps ++ (b ++ ('<' :: (cs ++ c))))) = c
    rw [if_pos (show ciStartsWith ('<' :: ps) ('<' :: (ps ++ (b ++ ('<' :: (cs ++ c))))) = true from
      ciStartsWith_append_self ('<' :: ps) _)]
    have hdrop : List.drop ('<' :: ps).length ('<' :: (ps ++ (b ++ ('<' :: (cs ++ c))))) =
        b ++ ('<' :: (cs ++ c)) := by
      simp [List.drop_left]
    rw [hdrop, ciDropThrough_found cs c hb]
    exact removePairsF_self ps ('<' :: cs) c n (ciOccursB_of_noLt ps hc)

/-- An open tag with no later close tag is left in place. -/
theorem removePairsF_at_open_noclose (ps cs b : List Char) (fuel : Nat)
    (hps : '<' ∉ ps) (hb : '<' ∉ b) (hfuel : 1 ≤ fuel) :
    removePairsF ('<' :: ps) ('<' :: cs) fuel ('<' :: (ps ++ b)) = '<' :: (ps ++ b) := by
  cases fuel with
  | zero => omega
  | succ n =>
    show (if ciStartsWith ('<' :: ps) ('<' :: (ps ++ b)) = true then
        match ciDropThrough ('<' :: cs)
          (List.drop ('<' :: ps).length ('<' :: (ps ++ b))) with
        | some rest => removePairsF ('<' :: ps) ('<' :: cs) n rest
        | none => '<' :: removePairsF ('<' :: ps) ('<' :: cs) n (ps ++ b)
      else '<' :: removePairsF ('<' :: ps) ('<' :: cs) n (ps ++ b)) = '<' :: (ps ++ b)
    rw [if_pos (show ciStartsWith ('<' :: ps) ('<' :: (ps ++ b)) = true from
      ciStartsWith_append_self ('<' :: ps) _)]
    have hdrop : List.drop ('<' :: ps).length ('<' :: (ps ++ b)) = b := by
      simp [List.drop_left]
    rw [hdrop, ciDropThrough_none_of_noLt cs hb]
    rw [removePairsF_self ps ('<' :: cs) (ps ++ b) n
      (ciOccursB_of_noLt ps (fun h => (List.mem_append.mp h).elim (fun h2 => hps h2)
        (fun h2 => hb h2)))]


theorem removeUnclosed_hit2 (ps : List Char) (r : List Char) :
    removeUnclosed ('<' :: ps) ('<' :: (ps ++ r)) = [] := by
  unfold removeUnclosed
  rw [if_pos (by exact ciStartsWith_append_self ('<' :: ps) r)]

/-- Stripping a paired think span: `a<think>b</think>c` becomes `trim (a ++ c)`. -/
theorem strip_paired_think (a b c : List Char) (ha : '<' ∉ a) (hb : '<' ∉ b)
    (hc : '<' ∉ c) :
    stripL (a ++ (thinkOpen ++ (b ++ (thinkClose ++ c)))) = jsTrimL (a ++ c) := by
  have hac : '<' ∉ a ++ c := fun h => (List.mem_append.mp h).elim ha hc
  have h1 : removePairs thinkOpen thinkClose (a ++ (thinkOpen ++ (b ++ (thinkClose ++ c)))) =
      a ++ c := by
    rw [removePairs, thinkOpen_eq, thinkClose_eq, List.cons_append, List.cons_append]
    rw [removePairsF_append_noLt thinkOpenT ('<' :: thinkCloseT) a _ _ ha (le_refl _)]
    rw [removePairsF_at_open thinkOpenT thinkCloseT b c _ hb hc
      (by simp [List.length_append])]
  have h2 : removePairs thinkingOpen thinkingClose (a ++ c) = a ++ c := by
    rw [removePairs]
    exact removePairsF_self thinkingOpenT thinkingClose (a ++ c) _ (ciOccursB_of_noLt _ hac)
  have h3 : removeUnclosed thinkOpen (a ++ c) = a ++ c :=
    removeUnclosed_self thinkOpenT (ciOccursB_of_noLt _ hac)
  have h4 : removeUnclosed thinkingOpen (a ++ c) = a ++ c :=
    removeUnclosed_self thinkingOpenT (ciOccursB_of_noLt _ hac)
  unfold stripL
  rw [h1, h2, h3, h4]

/-- Stripping a paired thinking span: `a<thinking>b</thinking>c` becomes
`trim (a ++ c)`. -/
theorem strip_paired_thinking (a b c : List Char) (ha : '<' ∉ a) (hb : '<' ∉ b)
    (hc : '<' ∉ c) :
    stripL (a ++ (thinkingOpen ++ (b ++ (thinkingClose ++ c)))) = jsTrimL (a ++ c) := by
  have hac : '<' ∉ a ++ c := fun h => (List.mem_append.mp h).elim ha hc
  have hocc : ciOccursB ('<' :: thinkOpenT)
      (a ++ ('<' :: (thinkingOpenT ++ (b ++ ('<' :: (thinkingCloseT ++ c)))))) = false := by
    have hc0 : ciOccursB ('<' :: thinkOpenT) c = false := ciOccursB_of_noLt _ hc
    have h01 := ciOccursB_chunk thinkOpenT thinkingCloseT c
      (mm_think_in_thinkingClose c) (by decide) hc0
    have h02 := ciOccursB_append_noLt thinkOpenT _ hb h01
    have h03 := ciOccursB_chunk thinkOpenT thinkingOpenT _
      (mm_think_in_thinkingOpen _) (by decide) h02
    exact ciOccursB_append_noLt thinkOpenT _ ha h03
  have h1 : removePairs thinkOpen thinkClose
      (a ++ (thinkingOpen ++ (b ++ (thinkingClose ++ c)))) =
      a ++ (thinkingOpen ++ (b ++ (thinkingClose ++ c))) := by
    rw [removePairs]
    exact removePairsF_self thinkOpenT thinkClose _ _ hocc
  have h2 : removePairs thinkingOpen thinkingClose
      (a ++ (thinkingOpen ++ (b ++ (thinkingClose ++ c)))) = a ++ c := by
    rw [removePairs, thinkingOpen_eq, thinkingClose_eq, List.cons_append, List.cons_append]
    rw [removePairsF_append_noLt thinkingOpenT ('<' :: thinkingCloseT) a _ _ ha (le_refl _)]
    rw [removePairsF_at_open thinkingOpenT thinkingCloseT b c _ hb hc
      (by simp [List.length_append])]
  have h3 : removeUnclosed thinkOpen (a ++ c) = a ++ c :=
    removeUnclosed_self thinkOpenT (ciOccursB_of_noLt _ hac)
  have h4 : removeUnclosed thinkingOpen (a ++ c) = a ++ c :=
    removeUnclosed_self thinkingOpenT (ciOccursB_of_noLt _ hac)
  unfold stripL
  rw [h1, h2, h3, h4]

/-- Stripping an unclosed think tag: `a<think>b` becomes `trim a`. -/
theorem strip_unclosed_think (a b : List Char) (ha : '<' ∉ a) (hb : '<' ∉ b) :
    stripL (a ++ (thinkOpen ++ b)) = jsTrimL a := by
  have h1 : removePairs thinkOpen thinkClose (a ++ (thinkOpen ++ b)) =
      a ++ (thinkOpen ++ b) := by
    rw [removePairs, thinkOpen_eq, thinkClose_eq, List.cons_append]
    rw [removePairsF_append_noLt thinkOpenT ('<' :: thinkCloseT) a _ _ ha (le_refl _)]
    rw [removePairsF_at_open_noclose thinkOpenT thinkCloseT b _ (by decide) hb
      (by simp [List.length_append])]
  have hocc2 : ciOccursB ('<' :: thinkingOpenT) (a ++ ('<' :: (thinkOpenT ++ b))) = false := by
    have hb0 : ciOccursB ('<' :: thinkingOpenT) b = false := ciOccursB_of_noLt _ hb
    have h01 := ciOccursB_chunk thinkingOpenT thinkOpenT b
      (mm_thinking_in_thinkOpen b) (by decide) hb0
    exact ciOccursB_append_noLt thinkingOpenT _ ha h01
  have h2 : removePairs thinkingOpen thinkingClose (a ++ (thinkOpen ++ b)) =
      a ++ (thinkOpen ++ b) := by
    rw [removePairs]
    exact removePairsF_self thinkingOpenT thinkingClose _ _ hocc2
  have h3 : removeUnclosed thinkOpen (a ++ (thinkOpen ++ b)) = a := by
    rw [thinkOpen_eq, List.cons_append]
    rw [removeUnclosed_append_noLt thinkOpenT _ ha, removeUnclosed_hit2]
    exact List.append_nil a
  have h4 : removeUnclosed thinkingOpen a = a :=
    removeUnclosed_self thinkingOpenT (ciOccursB_of_noLt _ ha)
  unfold stripL
  rw [h1, h2, h3, h4]

/-- Stripping an unclosed thinking tag: `a<thinking>b` becomes `trim a`. -/
theorem strip_unclosed_thinking (a b : List Char) (ha : '<' ∉ a) (hb : '<' ∉ b) :
    stripL (a ++ (thinkingOpen ++ b)) = jsTrimL a := by
  have hocc1 : ciOccursB ('<' :: thinkOpenT) (a ++ ('<' :: (thinkingOpenT ++ b))) = false := by
    have hb0 : ciOccursB ('<' :: thinkOpenT) b = false := ciOccursB_of_noLt _ hb
    have h01 := ciOccursB_chunk thinkOpenT thinkingOpenT b
      (mm_think_in_thinkingOpen b) (by decide) hb0
    exact ciOccursB_append_noLt thinkOpenT _ ha h01
  have h1 : removePairs thinkOpen thinkClose (a ++ (thinkingOpen ++ b)) =
      a ++ (thinkingOpen ++ b) := by
    rw [removePairs]
    exact removePairsF_self thinkOpenT thinkClose _ _ hocc1
  have h2 : removePairs thinkingOpen thinkingClose (a ++ (thinkingOpen ++ b)) =
      a ++ (thinkingOpen ++ b) := by
    rw [removePairs, thinkingOpen_eq, thinkingClose_eq, List.cons_append]
    rw [removePairsF_append_noLt thinkingOpenT ('<' :: thinkingCloseT) a _ _ ha (le_refl _)]
    rw [removePairsF_at_open_noclose thinkingOpenT thinkingCloseT b _ (by decide) hb
      (by simp [List.length_append])]
  have h3 : removeUnclosed thinkOpen (a ++ (thinkingOpen ++ b)) =
      a ++ (thinkingOpen ++ b) :=
    removeUnclosed_self thinkOpenT hocc1
  have h4 : removeUnclosed thinkingOpen (a ++ (thinkingOpen ++ b)) = a := by
    rw [thinkingOpen_eq, List.cons_append]
    rw [removeUnclosed_append_noLt thinkingOpenT _ ha, removeUnclosed_hit2]
    exact List.append_nil a
  unfold stripL
  rw [h1, h2, h3, h4]


/-- C8: the sanitizer strips exactly the reasoning spans — a paired
`<think>…</think>` or `<thinking>…</thinking>` span is removed (leaving the
trimmed concatenation of the surrounding text), an unclosed opening tag is
removed together with everything after it — every evaluator variant receives
the sanitized text (`evaluate` is the dispatch applied to
`stripThinkingTags response`), and the judge sub-call's own reply passes
through the same `stripThinkingTags` before being parsed. -/
theorem c8_sanitizer_strip_spans :
    (∀ env tc resp opts,
      evaluate env tc resp opts = dispatchCleaned env tc (stripThinkingTags resp) opts)
    ∧ (∀ a b c : List Char, '<' ∉ a → '<' ∉ b → '<' ∉ c →
      stripThinkingTags (String.mk (a ++ (thinkOpen ++ (b ++ (thinkClose ++ c))))) =
        String.mk (jsTrimL (a ++ c)))
    ∧ (∀ a b c : List Char, '<' ∉ a → '<' ∉ b → '<' ∉ c →
      stripThinkingTags (String.mk (a ++ (thinkingOpen ++ (b ++ (thinkingClose ++ c))))) =
        String.mk (jsTrimL (a ++ c)))
    ∧ (∀ a b : List Char, '<' ∉ a → '<' ∉ b →
      stripThinkingTags (String.mk (a ++ (thinkOpen ++ b))) = String.mk (jsTrimL a))
    ∧ (∀ a b : List Char, '<' ∉ a → '<' ∉ b →
      stripThinkingTags (String.mk (a ++ (thinkingOpen ++ b))) = String.mk (jsTrimL a))
    ∧ (∀ env tc resp opts t p, opts.judgeProvider = some p →
      env.judgeCall (judgePromptFor tc resp) = Except.ok t →
      llmJudge env tc resp opts = Except.ok (judgeParseVerdict (stripThinkingTags t))) := by
  refine ⟨fun _ _ _ _ => rfl, ?_, ?_, ?_, ?_, ?_⟩
  · intro a b c ha hb hc
    show String.mk (stripL (a ++ (thinkOpen ++ (b ++ (thinkClose ++ c))))) = _
    rw [strip_paired_think a b c ha hb hc]
  · intro a b c ha hb hc
    show String.mk (stripL (a ++ (thinkingOpen ++ (b ++ (thinkingClose ++ c))))) = _
    rw [strip_paired_thinking a b c ha hb hc]
  · intro a b ha hb
    show String.mk (stripL (a ++ (thinkOpen ++ b))) = _
    rw [strip_unclosed_think a b ha hb]
  · intro a b ha hb
    show String.mk (stripL (a ++ (thinkingOpen ++ b))) = _
    rw [strip_unclosed_thinking a b ha hb]
  · intro env tc resp opts t p hp ht
    unfold llmJudge
    rw [hp, ht]

theorem c8_sanitizer_strip_spans_witness :
    stripThinkingTags (String.mk ("A ".data ++ (thinkOpen ++
      ("hidden reasoning".data ++ (thinkClose ++ " B".data))))) =
      String.mk (jsTrimL ("A ".data ++ " B".data)) :=
  c8_sanitizer_strip_spans.2.1 "A ".data "hidden reasoning".data " B".data
    (by decide) (by decide) (by decide)


theorem sha_foldl_length :
    ∀ (bs : List (List Nat)) (hs : List Nat), hs.length = 8 →
      (bs.foldl compressBlock hs).length = 8 := by
  intro bs
  induction bs with
  | nil => intro hs h; exact h
  | cons b t ih =>
    intro hs h
    show (t.foldl compressBlock (compressBlock hs b)).length = 8
    exact ih _ (by simp [compressBlock])

theorem foldlDigits_lt :
    ∀ (l : List Nat) (acc B : Nat), acc < B →
      l.foldl (fun a h => a * m32 + h % m32) acc < B * m32 ^ l.length := by
  intro l
  induction l with
  | nil =>
    intro acc B h
    simpa using h
  | cons x t ih =>
    intro acc B h
    show t.foldl (fun a h => a * m32 + h % m32) (acc * m32 + x % m32) <
      B * m32 ^ (t.length + 1)
    have hm : 0 < m32 := by norm_num [m32]
    have hx : x % m32 < m32 := Nat.mod_lt x hm
    have hacc : acc * m32 + x % m32 < B * m32 := by
      calc acc * m32 + x % m32 < acc * m32 + m32 := by omega
        _ = (acc + 1) * m32 := by ring
        _ ≤ B * m32 := Nat.mul_le_mul_right _ (by omega)
    calc t.foldl (fun a h => a * m32 + h % m32) (acc * m32 + x % m32) <
        (B * m32) * m32 ^ t.length := ih _ _ hacc
      _ = B * m32 ^ (t.length + 1) := by ring

theorem sha256Nat_lt (msg : List Nat) : sha256Nat msg < 2 ^ 256 := by
  unfold sha256Nat
  have hlen : (sha256Words msg).length = 8 :=
    sha_foldl_length _ H256 (by simp [H256])
  have h := foldlDigits_lt (sha256Words msg) 0 1 Nat.one_pos
  rw [hlen] at h
  calc (sha256Words msg).foldl (fun acc h => acc * m32 + h % m32) 0 < 1 * m32 ^ 8 := h
    _ = 2 ^ 256 := by norm_num [m32]

theorem hexDigits_length : ∀ (w n : Nat), (hexDigits w n).length = w := by
  intro w
  induction w with
  | zero => intro n; rfl
  | succ k ih => intro n; simp [hexDigits, ih]

theorem hexDigits_split :
    ∀ (b a n : Nat), hexDigits (a + b) n =
      hexDigits a (n / 16 ^ b) ++ hexDigits b (n % 16 ^ b) := by
  intro b
  induction b with
  | zero =>
    intro a n
    simp [hexDigits]
  | succ k ih =>
    intro a n
    have e1 : n / 16 / 16 ^ k = n / 16 ^ (k + 1) := by
      rw [Nat.div_div_eq_div_mul, pow_succ, Nat.mul_comm]
    have e2 : n / 16 % 16 ^ k = n % 16 ^ (k + 1) / 16 := by
      rw [pow_succ, Nat.mul_comm (16 ^ k) 16]
      exact (Nat.mod_mul_right_div_self n 16 (16 ^ k)).symm
    have e3 : n % 16 ^ (k + 1) % 16 = n % 16 :=
      Nat.mod_mod_of_dvd n (dvd_pow_self 16 (Nat.succ_ne_zero k))
    show hexDigits (a + k + 1) n = _
    rw [show hexDigits (a + k + 1) n =
      hexDigits (a + k) (n / 16) ++ [hexDigit (n % 16)] from rfl]
    rw [ih a (n / 16), e1, e2, ← e3]
    rw [show hexDigits (k + 1) (n % 16 ^ (k + 1)) =
      hexDigits k (n % 16 ^ (k + 1) / 16) ++ [hexDigit (n % 16 ^ (k + 1) % 16)] from rfl]
    rw [List.append_assoc]

theorem hexDigits_take16 (d : Nat) :
    (hexDigits 64 d).take 16 = hexDigits 16 (d / 16 ^ 48) := by
  have h : hexDigits 64 d = hexDigits 16 (d / 16 ^ 48) ++ hexDigits 48 (d % 16 ^ 48) :=
    hexDigits_split 48 16 d
  rw [h]
  exact List.take_left' (hexDigits_length 16 _)


/-- The digest hashed by `getCacheKey` for a fixed request tuple, as a
function of the options record. -/
def keyDigest (o : CompletionOptions) : Nat :=
  sha256Nat (utf8Bytes (jsonStringify (cacheKeyJson "p" "m" [] o)))

/-- An options record carrying only a `max_tokens` value. -/
def mtOpt (n : Nat) : CompletionOptions :=
  { max_tokens := some ⟨false, n, 0⟩ }

theorem getCacheKey_digest (o : CompletionOptions) :
    getCacheKey "p" "m" [] o = String.mk (hexDigits 16 (keyDigest o / 16 ^ 48)) := by
  show String.mk ((hexDigits 64 (keyDigest o)).take 16) = _
  rw [hexDigits_take16]

/-- C4 counterexample: the 16-hex-character key is not injective even in
`max_tokens` alone — infinitely many `max_tokens` values map into the
finite key space, so two requests differing in `max_tokens` collide. -/
theorem c4_counterexample_key_collision :
    ¬ (∀ o1 o2 : CompletionOptions,
        getCacheKey "p" "m" [] o1 = getCacheKey "p" "m" [] o2 →
        o1.max_tokens = o2.max_tokens) := by
  intro hinj
  have hbound : ∀ o : CompletionOptions, keyDigest o / 16 ^ 48 < 16 ^ 16 := by
    intro o
    refine Nat.div_lt_of_lt_mul ?_
    calc keyDigest o < 2 ^ 256 := sha256Nat_lt _
      _ = 16 ^ 48 * 16 ^ 16 := by norm_num
  obtain ⟨n, m, hne, heq⟩ := Finite.exists_ne_map_eq_of_infinite
    (fun n : ℕ => (⟨keyDigest (mtOpt n) / 16 ^ 48, hbound _⟩ : Fin (16 ^ 16)))
  have hv : keyDigest (mtOpt n) / 16 ^ 48 = keyDigest (mtOpt m) / 16 ^ 48 :=
    congrArg Fin.val heq
  have hkey : getCacheKey "p" "m" [] (mtOpt n) = getCacheKey "p" "m" [] (mtOpt m) := by
    rw [getCacheKey_digest, getCacheKey_digest, hv]
  have hmt := hinj _ _ hkey
  simp [mtOpt] at hmt
  exact hne hmt

/-- C4 (amended): the cache key is a deterministic function of exactly
(provider, model, message sequence, temperature, max_tokens) — any two
option records agreeing on `temperature` and `max_tokens` (whatever their
other fields) give the same key — and the key is 16 hex characters, so
collisions between different requests exist (see the counterexample) but
the inputs listed are the only ones that influence the key. -/
theorem c4_cache_key_fields :
    (∀ (p m : String) (msgs : List Message) (o1 o2 : CompletionOptions),
      o1.temperature = o2.temperature → o1.max_tokens = o2.max_tokens →
      getCacheKey p m msgs o1 = getCacheKey p m msgs o2)
    ∧ (∀ (p m : String) (msgs : List Message) (o : CompletionOptions),
      (getCacheKey p m msgs o).length = 16) := by
  constructor
  · intro p m msgs o1 o2 h1 h2
    have hj : cacheKeyJson p m msgs o1 = cacheKeyJson p m msgs o2 := by
      unfold cacheKeyJson
      rw [h1, h2]
    unfold getCacheKey
    rw [hj]
  · intro p m msgs o
    simp only [getCacheKey, String.length, List.length_take, hexDigits_length]
    rfl

theorem c4_cache_key_fields_witness :
    getCacheKey "openai" "gpt-4" [⟨"user", "hi"⟩]
        ⟨some ⟨false, 7, -1⟩, some ⟨false, 256, 0⟩, [("stream", "true")]⟩ =
      getCacheKey "openai" "gpt-4" [⟨"user", "hi"⟩]
        ⟨some ⟨false, 7, -1⟩, some ⟨false, 256, 0⟩, []⟩ :=
  c4_cache_key_fields.1 "openai" "gpt-4" [⟨"user", "hi"⟩] _ _ rfl rfl

end Spec2Proof
